import Mathlib

/-!
# mlb-cli: the interactive navigation state machine

A shallow embedding of the Go package `internal/tui` (files `model.go`, `update.go`,
`view.go`, `keys.go`) together with the records of `internal/models/models.go` it uses.

Conventions of the embedding.

* Go `int` is embedded as `Int`.  Every integer handled here is a list length, a list
  index, a terminal dimension or a record identifier, far inside the 64-bit range, so
  no wrap-around is modelled.  Integer division `/` and remainder `%` of Go truncate
  toward zero: `Int.tdiv`, `Int.tmod`.
* A Go slice is a `List`.  The code only ever takes `len`, ranges over, indexes and
  appends to its slices, so the `nil` slice and the empty non-nil slice
  (`make([]int, 0)`) are both `[]`.
* A Go pointer that may be `nil`, and the `error` interface, are `Option`.
* An index expression `xs[i]` panics in Go when `i` is out of range.  A function that
  contains one returns `Option`, and `none` is the run-time panic.
* A Go method with a pointer receiver that mutates the model is a function
  `Model → Model`; one with a value receiver returning `(tea.Model, tea.Cmd)` is a
  function to `Model × List Cmd`, the list being the batch of commands.
* Code outside the repository is a parameter or an event payload:
  `strings.ToLower` is the parameter `lower`; what the `textinput` and `spinner`
  components hold after their own `Update` is carried by the message.
-/

namespace MlbCli

/-! ## Records of `internal/models/models.go` -/

/-- Team record (`models.Team`); the anonymous structs `Division`, `League`, `Venue`
each hold one `Name`. -/
structure Team where
  ID : Int
  Name : String
  Abbreviation : String
  DivisionName : String
  LeagueName : String
  VenueName : String
deriving DecidableEq, Repr

/-- The anonymous struct `Person` of a roster entry. -/
structure PersonRef where
  ID : Int
  FullName : String
deriving DecidableEq, Repr

/-- The anonymous struct `Position` of a roster entry. -/
structure PositionRef where
  Abbreviation : String
deriving DecidableEq, Repr

/-- The anonymous struct `Status` of a roster entry. -/
structure StatusRef where
  Description : String
deriving DecidableEq, Repr

/-- Roster entry (`models.RosterEntry`). -/
structure RosterEntry where
  Person : PersonRef
  Position : PositionRef
  JerseyNumber : String
  Status : StatusRef
deriving DecidableEq, Repr

/-- Team record inside the standings (`models.TeamRecord`). -/
structure TeamRecord where
  TeamName : String
  Wins : Int
  Losses : Int
  WinningPct : String
  GamesBack : String
  DivisionRank : String
  StreakCode : String
deriving DecidableEq, Repr

/-- Standings of one division (`models.StandingsRecord`). -/
structure StandingsRecord where
  DivisionName : String
  TeamRecords : List TeamRecord
deriving DecidableEq, Repr

/-- Standings payload (`models.StandingsResponse`). -/
structure StandingsResponse where
  Records : List StandingsRecord
deriving DecidableEq, Repr

/-- One game of the schedule (`models.ScheduleGame`). -/
structure ScheduleGame where
  GamePk : Int
  GameDate : String
  DetailedState : String
  AwayName : String
  AwayScore : Int
  HomeName : String
  HomeScore : Int
  VenueName : String
deriving DecidableEq, Repr

/-- One date of the schedule (`models.ScheduleDate`). -/
structure ScheduleDate where
  Date : String
  Games : List ScheduleGame
deriving DecidableEq, Repr

/-- Schedule payload (`models.ScheduleResponse`). -/
structure ScheduleResponse where
  Dates : List ScheduleDate
deriving DecidableEq, Repr

/-- Statistics of one season (`models.StatSplit`); the `map[string]interface{}` is an
association list from key to rendered value. -/
structure StatSplit where
  Season : String
  Stat : List (String × String)
deriving DecidableEq, Repr

/-- Group of statistics (`models.StatGroup`). -/
structure StatGroup where
  GroupDisplayName : String
  Splits : List StatSplit
deriving DecidableEq, Repr

/-- Player with statistics (`models.PlayerWithStats`). -/
structure PlayerWithStats where
  FullName : String
  Stats : List StatGroup
deriving DecidableEq, Repr

/-- Player statistics payload (`models.PlayerStatsResponse`). -/
structure PlayerStatsResponse where
  People : List PlayerWithStats
deriving DecidableEq, Repr

/-! ## The model (`model.go`, `keys.go`) -/

/-- Current screen (`type View int`). -/
inductive View where
  | ViewTeams
  | ViewRoster
  | ViewPlayer
  | ViewStandings
  | ViewSchedule
deriving DecidableEq, Repr

/-- Main navigation tab (`type Tab int`). -/
inductive Tab where
  | TabTeams
  | TabStandings
  | TabSchedule
deriving DecidableEq, Repr

/-- The conversion `int(tab)`: the constants are numbered by `iota`. -/
def Tab.toInt : Tab → Int
  | .TabTeams => 0
  | .TabStandings => 1
  | .TabSchedule => 2

/-- The conversion `Tab(n)`.  The code applies it only to a remainder modulo 3 of a
non-negative number; the three constants are the only values of the embedded type. -/
def Tab.ofInt (n : Int) : Tab :=
  if n = 1 then .TabStandings else if n = 2 then .TabSchedule else .TabTeams

/-- Key binding (`key.Binding`): the key names it answers to. -/
structure Binding where
  keys : List String
deriving DecidableEq, Repr

/-- Key map (`KeyMap`). -/
structure KeyMap where
  Up : Binding
  Down : Binding
  Enter : Binding
  Back : Binding
  Quit : Binding
  Help : Binding
  Filter : Binding
  Tab : Binding
  ShiftTab : Binding
  Refresh : Binding
  Escape : Binding
deriving DecidableEq, Repr

/-- The default key bindings (`DefaultKeyMap`). -/
def DefaultKeyMap : KeyMap where
  Up := ⟨["up", "k"]⟩
  Down := ⟨["down", "j"]⟩
  Enter := ⟨["enter"]⟩
  Back := ⟨["backspace", "esc"]⟩
  Quit := ⟨["q", "ctrl+c"]⟩
  Help := ⟨["?"]⟩
  Filter := ⟨["/"]⟩
  Tab := ⟨["tab"]⟩
  ShiftTab := ⟨["shift+tab"]⟩
  Refresh := ⟨["r"]⟩
  Escape := ⟨["esc"]⟩

/-- The part of `tea.KeyMsg.Type` that `handleFilterInput` inspects. -/
inductive KeyType where
  | KeyEnter
  | KeyEscape
  | KeyOther
deriving DecidableEq, Repr

/-- Key press (`tea.KeyMsg`): its field `Type` (here `keyType`) and its rendering
`msg.String()` (here `str`). -/
structure KeyMsg where
  keyType : KeyType
  str : String
deriving DecidableEq, Repr

/-- The text input component (`textinput.Model`): its value and its focus. -/
structure TextInput where
  value : String
  focus : Bool
deriving DecidableEq, Repr

/-- Command returned to the runtime (`tea.Cmd`). -/
inductive Cmd where
  | Quit
  | spinnerTick
  | textInputCmd
  | loadTeams
  | loadRoster (teamID : String)
  | loadStandings
  | loadSchedule
  | loadPlayerStats (playerID : String)
deriving DecidableEq, Repr

/-- The TUI model (`Model`).  The fields `client` and `player` of the Go struct are
never read or written by the code embedded here and are left out; `spinner` is the
frame of the busy indicator. -/
structure Model where
  currentView : View
  currentTab : Tab
  history : List View
  teams : List Team
  roster : List RosterEntry
  playerStats : Option PlayerStatsResponse
  standings : Option StandingsResponse
  schedule : Option ScheduleResponse
  selectedTeam : Option Team
  selectedPlayer : Option RosterEntry
  cursor : Int
  loading : Bool
  err : Option String
  filterMode : Bool
  filterText : String
  filteredList : List Int
  spinner : Nat
  textInput : TextInput
  keys : KeyMap
  width : Int
  height : Int
deriving DecidableEq, Repr

/-- The initial model (`NewModel`). -/
def NewModel : Model where
  currentView := .ViewTeams
  currentTab := .TabTeams
  history := []
  teams := []
  roster := []
  playerStats := none
  standings := none
  schedule := none
  selectedTeam := none
  selectedPlayer := none
  cursor := 0
  loading := true
  err := none
  filterMode := false
  filterText := ""
  filteredList := []
  spinner := 0
  textInput := ⟨"", false⟩
  keys := DefaultKeyMap
  width := 80
  height := 24

/-- Message delivered to `Update` (`tea.Msg`).  `KeyMsg` carries, next to the key, the
value the text input holds once its own `Update` has processed that key (read only in
filter mode); `TickMsg` carries the spinner frame after the spinner's own `Update`;
`otherMsg` is any message type `Update` has no case for. -/
inductive Msg where
  | WindowSizeMsg (Width Height : Int)
  | KeyMsg (key : KeyMsg) (edited : String)
  | TickMsg (frame : Nat)
  | teamsLoadedMsg (teams : List Team) (err : Option String)
  | rosterLoadedMsg (roster : List RosterEntry) (err : Option String)
  | standingsLoadedMsg (standings : Option StandingsResponse) (err : Option String)
  | scheduleLoadedMsg (schedule : Option ScheduleResponse) (err : Option String)
  | playerStatsLoadedMsg (stats : Option PlayerStatsResponse) (err : Option String)
  | otherMsg
deriving DecidableEq, Repr

/-! ## Library functions used by the code -/

/-- Length of a slice as a Go `int` (`len`). -/
def len {α : Type} (xs : List α) : Int := (xs.length : Int)

/-- The index expression `xs[i]`; `none` is the index-out-of-range panic. -/
def index {α : Type} (xs : List α) (i : Int) : Option α :=
  if i < 0 then none else xs.get? i.toNat

/-- Whether the character sequence `p` starts the sequence `s`. -/
def startsWith : List Char → List Char → Bool
  | [], _ => true
  | _ :: _, [] => false
  | a :: p, b :: s => a == b && startsWith p s

/-- Whether `sub` occurs in `s` as a contiguous block. -/
def containsChars : List Char → List Char → Bool
  | [], sub => startsWith sub []
  | c :: s, sub => startsWith sub (c :: s) || containsChars s sub

/-- Substring test (`strings.Contains`). -/
def Contains (s substr : String) : Bool := containsChars s.data substr.data

/-- Decimal rendering of an integer (`fmt.Sprintf("%d", n)`). -/
def sprintfD (n : Int) : String := toString n

/-- A lower-casing function that maps the ASCII capitals only; used to evaluate the
code on concrete inputs, where `strings.ToLower` is the parameter `lower`. -/
def asciiLower (s : String) : String := ⟨s.data.map Char.toLower⟩

/-! ## The transition function (`update.go`) -/

/-- Whether a key press matches a binding (`matchKey` on a `key.Binding`). -/
def matchKey (msg : KeyMsg) (binding : Binding) : Bool :=
  binding.keys.contains msg.str

/-- Appends the current view to the history (`Model.pushHistory`). -/
def pushHistory (m : Model) : Model :=
  { m with history := m.history ++ [m.currentView] }

/-- Clears the filter (`Model.resetFilter`). -/
def resetFilter (m : Model) : Model :=
  { m with filterText := "", filteredList := [],
           textInput := { m.textInput with value := "" } }

/-- The loop `for i, x := range xs { if p x { acc = append(acc, i) } }`, the index
starting at `i`. -/
def appendMatches {α : Type} (p : α → Bool) : List α → Int → List Int → List Int
  | [], _, acc => acc
  | x :: xs, i, acc => appendMatches p xs (i + 1) (if p x then acc ++ [i] else acc)

/-- The condition of the Teams loop of `applyFilter`. -/
def teamMatches (lower : String → String) (filter : String) (t : Team) : Bool :=
  Contains (lower t.Name) filter || Contains (lower t.Abbreviation) filter

/-- The condition of the Roster loop of `applyFilter`. -/
def rosterMatches (lower : String → String) (filter : String) (r : RosterEntry) : Bool :=
  Contains (lower r.Person.FullName) filter ||
    Contains (lower r.Position.Abbreviation) filter

/-- Recomputes the matching indices from the filter text (`Model.applyFilter`). -/
def applyFilter (lower : String → String) (m : Model) : Model :=
  if m.filterText = "" then { m with filteredList := [] }
  else
    let filter := lower m.filterText
    let m := { m with filteredList := [] }
    let m :=
      match m.currentView with
      | .ViewTeams =>
        { m with filteredList := appendMatches (teamMatches lower filter) m.teams 0 m.filteredList }
      | .ViewRoster =>
        { m with filteredList := appendMatches (rosterMatches lower filter) m.roster 0 m.filteredList }
      | _ => m
    if m.cursor ≥ len m.filteredList ∧ len m.filteredList > 0 then { m with cursor := 0 }
    else m

/-- Length of the effective list (`Model.currentListLength`). -/
def currentListLength (m : Model) : Int :=
  if len m.filteredList > 0 then len m.filteredList
  else
    match m.currentView with
    | .ViewTeams => len m.teams
    | .ViewRoster => len m.roster
    | .ViewStandings =>
      match m.standings with
      | none => 0
      | some s => s.Records.foldl (fun count r => count + len r.TeamRecords) 0
    | .ViewSchedule =>
      match m.schedule with
      | none => 0
      | some s => s.Dates.foldl (fun count d => count + len d.Games) 0
    | .ViewPlayer => 0

/-- Moves the cursor by `delta`, wrapping around (`Model.moveCursor`). -/
def moveCursor (m : Model) (delta : Int) : Model :=
  let listLen := currentListLength m
  if listLen = 0 then m
  else
    let m := { m with cursor := m.cursor + delta }
    if m.cursor < 0 then { m with cursor := listLen - 1 }
    else if m.cursor ≥ listLen then { m with cursor := 0 }
    else m

/-- Index into the full list addressed by the cursor (`Model.getActualIndex`). -/
def getActualIndex (m : Model) : Option Int :=
  if len m.filteredList > 0 ∧ m.cursor < len m.filteredList then
    index m.filteredList m.cursor
  else some m.cursor

/-- Drill-down on Enter (`Model.handleSelect`). -/
def handleSelect (m : Model) : Option (Model × List Cmd) :=
  match m.currentView with
  | .ViewTeams =>
    if len m.teams > 0 then
      match getActualIndex m with
      | none => none
      | some idx =>
        if idx < len m.teams then
          match index m.teams idx with
          | none => none
          | some t =>
            let m := { m with selectedTeam := some t }
            let m := pushHistory m
            let m := { m with currentView := .ViewRoster }
            let m := { m with cursor := 0 }
            let m := { m with loading := true }
            let m := resetFilter m
            some (m, [Cmd.spinnerTick, Cmd.loadRoster (sprintfD t.ID)])
        else some (m, [])
    else some (m, [])
  | .ViewRoster =>
    if len m.roster > 0 then
      match getActualIndex m with
      | none => none
      | some idx =>
        if idx < len m.roster then
          match index m.roster idx with
          | none => none
          | some r =>
            let m := { m with selectedPlayer := some r }
            let m := { m with playerStats := none }
            let m := pushHistory m
            let m := { m with currentView := .ViewPlayer }
            let m := { m with cursor := 0 }
            let m := { m with loading := true }
            some (m, [Cmd.spinnerTick, Cmd.loadPlayerStats (sprintfD r.Person.ID)])
        else some (m, [])
    else some (m, [])
  | _ => some (m, [])

/-- Back navigation (`Model.handleBack`). -/
def handleBack (m : Model) : Model × List Cmd :=
  match m.history.getLast? with
  | some v =>
    let m := { m with currentView := v }
    let m := { m with history := m.history.dropLast }
    let m := { m with cursor := 0 }
    (resetFilter m, [])
  | none => (m, [])

/-- Entering the current tab (`Model.switchToTab`). -/
def switchToTab (m : Model) : Model × List Cmd :=
  let m := { m with cursor := 0 }
  let m := { m with history := [] }
  let m := resetFilter m
  match m.currentTab with
  | .TabTeams =>
    let m := { m with currentView := .ViewTeams }
    if len m.teams = 0 then ({ m with loading := true }, [Cmd.spinnerTick, Cmd.loadTeams])
    else (m, [])
  | .TabStandings =>
    let m := { m with currentView := .ViewStandings }
    if m.standings = none then
      ({ m with loading := true }, [Cmd.spinnerTick, Cmd.loadStandings])
    else (m, [])
  | .TabSchedule =>
    let m := { m with currentView := .ViewSchedule }
    if m.schedule = none then
      ({ m with loading := true }, [Cmd.spinnerTick, Cmd.loadSchedule])
    else (m, [])

/-- Next tab (`Model.nextTab`). -/
def nextTab (m : Model) : Model × List Cmd :=
  switchToTab { m with currentTab := Tab.ofInt ((m.currentTab.toInt + 1).tmod 3) }

/-- Previous tab (`Model.prevTab`). -/
def prevTab (m : Model) : Model × List Cmd :=
  switchToTab { m with currentTab := Tab.ofInt ((m.currentTab.toInt + 2).tmod 3) }

/-- Reload of the data of the current view (`Model.refresh`). -/
def refresh (m : Model) : Model × List Cmd :=
  let m := { m with loading := true }
  let m := { m with err := none }
  match m.currentView with
  | .ViewTeams => (m, [Cmd.spinnerTick, Cmd.loadTeams])
  | .ViewRoster =>
    match m.selectedTeam with
    | some t => (m, [Cmd.spinnerTick, Cmd.loadRoster (sprintfD t.ID)])
    | none => (m, [])
  | .ViewPlayer =>
    match m.selectedPlayer with
    | some r => (m, [Cmd.spinnerTick, Cmd.loadPlayerStats (sprintfD r.Person.ID)])
    | none => (m, [])
  | .ViewStandings => (m, [Cmd.spinnerTick, Cmd.loadStandings])
  | .ViewSchedule => (m, [Cmd.spinnerTick, Cmd.loadSchedule])

/-- Key press outside filter mode (`Model.handleKeyInput`). -/
def handleKeyInput (m : Model) (msg : KeyMsg) : Option (Model × List Cmd) :=
  if matchKey msg m.keys.Quit then some (m, [Cmd.Quit])
  else if matchKey msg m.keys.Up then some (moveCursor m (-1), [])
  else if matchKey msg m.keys.Down then some (moveCursor m 1, [])
  else if matchKey msg m.keys.Enter then handleSelect m
  else if matchKey msg m.keys.Back then some (handleBack m)
  else if matchKey msg m.keys.Filter then
    some ({ m with filterMode := true, textInput := { m.textInput with focus := true } }, [])
  else if matchKey msg m.keys.Tab then some (nextTab m)
  else if matchKey msg m.keys.ShiftTab then some (prevTab m)
  else if matchKey msg m.keys.Refresh then some (refresh m)
  else some (m, [])

/-- Key press in filter mode (`Model.handleFilterInput`); `edited` is the value of the
text input after its own `Update` on this key. -/
def handleFilterInput (lower : String → String) (m : Model) (msg : KeyMsg)
    (edited : String) : Model × List Cmd :=
  if msg.keyType = .KeyEnter ∨ msg.keyType = .KeyEscape then
    let m := { m with filterMode := false }
    let m := { m with textInput := { m.textInput with focus := false } }
    if msg.keyType = .KeyEscape then
      let m := { m with textInput := { m.textInput with value := "" } }
      (resetFilter m, [])
    else (applyFilter lower m, [])
  else
    let m := { m with textInput := { m.textInput with value := edited } }
    let m := { m with filterText := m.textInput.value }
    (applyFilter lower m, [Cmd.textInputCmd])

/-- The transition function (`Model.Update`); `none` is a run-time panic. -/
def Update (lower : String → String) (m : Model) (msg : Msg) :
    Option (Model × List Cmd) :=
  match msg with
  | .WindowSizeMsg w h => some ({ m with width := w, height := h }, [])
  | .KeyMsg k edited =>
    if m.filterMode then some (handleFilterInput lower m k edited)
    else handleKeyInput m k
  | .TickMsg frame =>
    if m.loading then some ({ m with spinner := frame }, [Cmd.spinnerTick])
    else some (m, [])
  | .teamsLoadedMsg teams err =>
    let m := { m with loading := false }
    match err with
    | some e => some ({ m with err := some e }, [])
    | none => some (resetFilter { m with teams := teams }, [])
  | .rosterLoadedMsg roster err =>
    let m := { m with loading := false }
    match err with
    | some e => some ({ m with err := some e }, [])
    | none => some (resetFilter { m with roster := roster }, [])
  | .standingsLoadedMsg standings err =>
    let m := { m with loading := false }
    match err with
    | some e => some ({ m with err := some e }, [])
    | none => some ({ m with standings := standings }, [])
  | .scheduleLoadedMsg schedule err =>
    let m := { m with loading := false }
    match err with
    | some e => some ({ m with err := some e }, [])
    | none => some ({ m with schedule := schedule }, [])
  | .playerStatsLoadedMsg stats err =>
    let m := { m with loading := false }
    match err with
    | some e => some ({ m with err := some e }, [])
    | none => some ({ m with playerStats := stats }, [])
  | .otherMsg => some (m, [])

/-- Runs a sequence of messages through `Update`, discarding the commands; `none` if
some step panics. -/
def run (lower : String → String) : Model → List Msg → Option Model
  | m, [] => some m
  | m, msg :: rest =>
    match Update lower m msg with
    | none => none
    | some (m1, _) => run lower m1 rest

/-- States reachable from `NewModel` by messages delivered to `Update`. -/
def Reachable (lower : String → String) (m : Model) : Prop :=
  ∃ msgs : List Msg, run lower NewModel msgs = some m

/-! ## The viewport window (`view.go`) -/

/-- Visible range of a list of `total` rows on `visible` lines
(`Model.calculateVisibleRange`). -/
def calculateVisibleRange (m : Model) (total visible : Int) : Int × Int :=
  if total ≤ visible then (0, total)
  else
    let half := visible.tdiv 2
    let start := m.cursor - half
    let start := if start < 0 then 0 else start
    let stop := start + visible
    if stop > total then
      let stop := total
      let start := stop - visible
      let start := if start < 0 then 0 else start
      (start, stop)
    else (start, stop)

/-- Clamp of the specification: `x` limited to the interval from `lo` to `hi`. -/
def specClamp (x lo hi : Int) : Int :=
  if x < lo then lo else if hi < x then hi else x

/-- Reference window, written from the words of the specification: the whole list when
it fits, otherwise `visible` rows starting at the clamped centred position. -/
def specWindow (total visible cursor : Int) : Int × Int :=
  if total ≤ visible then (0, total)
  else
    let start := specClamp (cursor - visible / 2) 0 (total - visible)
    (start, start + visible)

/-- Number of list rows that fit the window (`visibleItems` in `renderTeams` and
`renderRoster`). -/
def visibleItems (m : Model) : Int :=
  let v := m.height - 12
  if v < 5 then 5 else v

/-- The index slice `0, 1, ..., n-1` built by the loop
`for i := range xs { indices[i] = i }` over a list of `n` items. -/
def identityIndices (n : Nat) : List Int :=
  List.map (fun i : Nat => (i : Int)) (List.range n)

/-- Indices of the teams to display (`Model.getTeamIndicesToShow`). -/
def getTeamIndicesToShow (m : Model) : List Int :=
  if len m.filteredList > 0 then m.filteredList
  else identityIndices m.teams.length

/-- Indices of the roster entries to display (`Model.getRosterIndicesToShow`). -/
def getRosterIndicesToShow (m : Model) : List Int :=
  if len m.filteredList > 0 then m.filteredList
  else identityIndices m.roster.length


/-! ## Sample data used by the concrete evaluations -/

/-- Sample team: Los Angeles Dodgers. -/
def teamLAD : Team := ⟨119, "Los Angeles Dodgers", "LAD", "NL West", "National League", "Dodger Stadium"⟩

/-- Sample team: New York Yankees. -/
def teamNYY : Team := ⟨147, "New York Yankees", "NYY", "AL East", "American League", "Yankee Stadium"⟩

/-- Sample team: Boston Red Sox. -/
def teamBOS : Team := ⟨111, "Boston Red Sox", "BOS", "AL East", "American League", "Fenway Park"⟩

/-- Sample roster entry. -/
def entryBetts : RosterEntry := ⟨⟨605141, "Mookie Betts"⟩, ⟨"SS"⟩, "50", ⟨"Active"⟩⟩

/-- Sample roster entry. -/
def entryOhtani : RosterEntry := ⟨⟨660271, "Shohei Ohtani"⟩, ⟨"DH"⟩, "17", ⟨"Active"⟩⟩

/-- Key press with the given `Type` and rendering. -/
def keyPress (t : KeyType) (s : String) : Msg := .KeyMsg ⟨t, s⟩ ""

/-- The Down key. -/
def keyDown : Msg := keyPress .KeyOther "down"

/-- The Enter key. -/
def keyEnter : Msg := keyPress .KeyEnter "enter"

/-- The Backspace key. -/
def keyBackspace : Msg := keyPress .KeyOther "backspace"

/-- The Refresh key. -/
def keyRefresh : Msg := keyPress .KeyOther "r"

/-- Messages that load three teams, move the cursor to the last one, refresh, and
complete the refresh with a one-team list. -/
def reloadShorterTrace : List Msg :=
  [.teamsLoadedMsg [teamLAD, teamNYY, teamBOS] none, keyDown, keyDown, keyRefresh,
   .teamsLoadedMsg [teamLAD] none]


/-- Sample player statistics payload. -/
def statsBetts : PlayerStatsResponse :=
  ⟨[⟨"Mookie Betts", [⟨"hitting", [⟨"2024", [("avg", ".289")]⟩]⟩]⟩]⟩

/-- Messages that load three teams, open the roster of the first, open its first
player, receive that player's statistics and go back twice to the team list. -/
def visitPlayerTrace : List Msg :=
  [.teamsLoadedMsg [teamLAD, teamNYY, teamBOS] none, keyEnter,
   .rosterLoadedMsg [entryBetts, entryOhtani] none, keyEnter,
   .playerStatsLoadedMsg (some statsBetts) none, keyBackspace, keyBackspace]

/-- The views passed through by the sequence Select, successful roster load, Select,
Back, Back started in `m`, with the final state; `none` if a step panics. -/
def drillDownViews (lower : String → String) (m : Model) (roster : List RosterEntry) :
    Option (List View × Model) :=
  match handleSelect m with
  | none => none
  | some (m1, _) =>
    match Update lower m1 (.rosterLoadedMsg roster none) with
    | none => none
    | some (m2, _) =>
      match handleSelect m2 with
      | none => none
      | some (m3, _) =>
        let m4 := (handleBack m3).1
        let m5 := (handleBack m4).1
        some ([m1.currentView, m2.currentView, m3.currentView, m4.currentView,
          m5.currentView], m5)

/-- The view a tab opens on. -/
def defaultView : Tab → View
  | .TabTeams => .ViewTeams
  | .TabStandings => .ViewStandings
  | .TabSchedule => .ViewSchedule

/-- The five cached payload slots of a model. -/
def payloads (m : Model) :
    List Team × List RosterEntry × Option PlayerStatsResponse ×
      Option StandingsResponse × Option ScheduleResponse :=
  (m.teams, m.roster, m.playerStats, m.standings, m.schedule)

/-- The outcome of a failed load: `Update` returns, with no command, a state that is
not loading, holds the error `e`, and has the five cached payloads of `m`. -/
def loadErrorOutcome (lower : String → String) (m : Model) (msg : Msg) (e : String) :
    Prop :=
  ∃ m1 : Model, Update lower m msg = some (m1, []) ∧ m1.loading = false ∧
    m1.err = some e ∧ payloads m1 = payloads m

/-- The teams selected by the filter: the items of the team list at the matching
indices left by `applyFilter`. -/
def teamsSelected (lower : String → String) (m : Model) : List Team :=
  (applyFilter lower m).filteredList.filterMap (index m.teams)

/-- The roster entries selected by the filter: the items of the roster at the matching
indices left by `applyFilter`. -/
def rosterSelected (lower : String → String) (m : Model) : List RosterEntry :=
  (applyFilter lower m).filteredList.filterMap (index m.roster)

/-- Messages that load three teams, enter filter mode and type a needle that matches
no team. -/
def noMatchTrace : List Msg :=
  [.teamsLoadedMsg [teamLAD, teamNYY, teamBOS] none, keyPress .KeyOther "/",
   .KeyMsg ⟨.KeyOther, "z"⟩ "z", .KeyMsg ⟨.KeyOther, "z"⟩ "zz"]

/-- What `View` puts between the breadcrumb and the filter line. -/
inductive Body where
  | starting
  | loading
  | error (e : String)
  | content (v : View)
deriving DecidableEq, Repr

/-- The choice `Model.View` makes: the text "Loading..." alone while the width is 0,
else the busy indicator while loading, else the error if there is one, else the
content of the current view. -/
def viewBody (m : Model) : Body :=
  if m.width = 0 then .starting
  else if m.loading then .loading
  else
    match m.err with
    | some e => .error e
    | none => .content m.currentView

/-- The load request of a tab. -/
def tabFetch : Tab → Cmd
  | .TabTeams => .loadTeams
  | .TabStandings => .loadStandings
  | .TabSchedule => .loadSchedule

/-- The payload slot of a tab holds nothing to show: the team list has length 0, resp.
the standings or the schedule pointer is nil. -/
def tabSlotEmpty (m : Model) : Tab → Bool
  | .TabTeams => decide (len m.teams = 0)
  | .TabStandings => decide (m.standings = none)
  | .TabSchedule => decide (m.schedule = none)

/-- The Tab key. -/
def keyTab : Msg := keyPress .KeyOther "tab"

/-- The key that enters filter mode. -/
def keySlash : Msg := keyPress .KeyOther "/"

/-- Sample standings payload with no records. -/
def standingsEmpty : StandingsResponse := ⟨[]⟩

/-- Sample schedule payload with no dates. -/
def scheduleEmpty : ScheduleResponse := ⟨[]⟩

/-- Messages that complete the team load with an empty list, then visit the Standings
and the Schedule tab, each load completing with an empty payload. -/
def emptyLoadsTrace : List Msg :=
  [.teamsLoadedMsg [] none, keyTab, .standingsLoadedMsg (some standingsEmpty) none,
   keyTab, .scheduleLoadedMsg (some scheduleEmpty) none]

/-- Messages that load three teams, move the cursor to the second and enter filter
mode. -/
def filterModeTrace : List Msg :=
  [.teamsLoadedMsg [teamLAD, teamNYY, teamBOS] none, keyDown, keySlash]

/-- Sample standings payload: one division with one team record. -/
def standingsSample : StandingsResponse :=
  ⟨[⟨"NL West", [⟨"Los Angeles Dodgers", 98, 64, ".605", "-", "1", "W5"⟩]⟩]⟩

/-- Messages that load three teams, open the first, fail to load its roster, go back,
switch to the Standings tab and load the standings successfully. -/
def staleErrorTrace : List Msg :=
  [.teamsLoadedMsg [teamLAD, teamNYY, teamBOS] none, keyEnter,
   .rosterLoadedMsg [] (some "request failed"), keyBackspace, keyTab,
   .standingsLoadedMsg (some standingsSample) none]

/-! ## The non-interactive commands (`internal/output/formatter.go`,
`internal/api/client.go`, `internal/models/models.go`) -/

/-- Output format (`output.Format`). -/
inductive Format where
  | FormatTable
  | FormatWide
  | FormatJSON
deriving DecidableEq, Repr

/-- The formatter (`output.Formatter`). -/
structure Formatter where
  format : Format
deriving DecidableEq, Repr

/-- What a print function sends to standard output: the JSON rendering of its data
(`printJSON`, whose marshalling is outside the repository), or the text chunks written
by the successive `fmt.Printf` and `fmt.Println` calls. -/
inductive Output where
  | json (data : PlayerStatsResponse)
  | text (chunks : List String)
deriving DecidableEq, Repr

/-- The verb `%-8s`: the string padded with blanks on the right to width 8. -/
def padRight8 (s : String) : String :=
  ⟨s.data ++ List.replicate (8 - s.data.length) ' '⟩

/-- One line of a statistic, printed only when the key is present
(`printStatLine`). -/
def printStatLine (label : String) (stat : List (String × String)) (key : String) :
    List String :=
  match stat.lookup key with
  | some val => [padRight8 (label ++ ":") ++ " " ++ val ++ "\n"]
  | none => []

/-- The labels and keys of the hitting lines of `PrintStats`, in order. -/
def hittingLines : List (String × String) :=
  [("    AVG", "avg"), ("    HR", "homeRuns"), ("    RBI", "rbi"), ("    H", "hits"),
   ("    AB", "atBats"), ("    OBP", "obp"), ("    SLG", "slg"), ("    OPS", "ops"),
   ("    SB", "stolenBases"), ("    BB", "baseOnBalls"), ("    SO", "strikeOuts")]

/-- The labels and keys of the pitching lines of `PrintStats`, in order. -/
def pitchingLines : List (String × String) :=
  [("    ERA", "era"), ("    W", "wins"), ("    L", "losses"), ("    G", "gamesPlayed"),
   ("    GS", "gamesStarted"), ("    SV", "saves"), ("    IP", "inningsPitched"),
   ("    SO", "strikeOuts"), ("    BB", "baseOnBalls"), ("    WHIP", "whip")]

/-- The body of the inner loop of `PrintStats` for a split that is not skipped: the
season label line and the statistic lines of the group. -/
def printSplit (groupName : String) (split : StatSplit) : List String :=
  let seasonLabel := if split.Season = "" then "Career" else split.Season
  ["\n  " ++ seasonLabel ++ ":\n"] ++
    (if groupName = "hitting" then
      hittingLines.flatMap (fun lk => printStatLine lk.1 split.Stat lk.2)
    else if groupName = "pitching" then
      pitchingLines.flatMap (fun lk => printStatLine lk.1 split.Stat lk.2)
    else [])

/-- The condition under which the inner loop of `PrintStats` skips a split
(`continue`). -/
def skipSplit (season : String) (split : StatSplit) : Bool :=
  decide (season ≠ "") && decide (split.Season ≠ season) && decide (split.Season ≠ "")

/-- The inner loop of `PrintStats` over the splits of one group. -/
def printSplits (season groupName : String) : List StatSplit → List String
  | [] => []
  | split :: rest =>
    if skipSplit season split then printSplits season groupName rest
    else printSplit groupName split ++ printSplits season groupName rest

/-- The outer loop of `PrintStats` over the groups of the player. -/
def printGroups (season : String) : List StatGroup → List String
  | [] => []
  | statGroup :: rest =>
    if len statGroup.Splits = 0 then printGroups season rest
    else
      ["\n" ++ statGroup.GroupDisplayName ++ " Stats:\n",
        String.mk (List.replicate 80 '─') ++ "\n"] ++
      printSplits season statGroup.GroupDisplayName statGroup.Splits ++
      printGroups season rest

/-- Prints the statistics of a player (`Formatter.PrintStats`). -/
def PrintStats (f : Formatter) (stats : PlayerStatsResponse) (season : String) : Output :=
  if f.format = .FormatJSON then .json stats
  else
    match stats.People with
    | [] => .text ["Player not found.\n"]
    | player :: _ =>
      .text (["\n⚾ Stats for " ++ player.FullName ++ "\n"] ++ printGroups season player.Stats)

/-- The splits of the first player that the loops of `PrintStats` do not skip, in
printing order: those of the groups with at least one split. -/
def printedSplits (stats : PlayerStatsResponse) (season : String) : List StatSplit :=
  match stats.People with
  | [] => []
  | player :: _ =>
    player.Stats.flatMap (fun g => g.Splits.filter (fun split => !skipSplit season split))

/-- The table of team abbreviations (`models.TeamAbbreviations`). -/
def TeamAbbreviations : List (String × Int) :=
  [("LAA", 108), ("ARI", 109), ("BAL", 110), ("BOS", 111), ("CHC", 112),
   ("CIN", 113), ("CLE", 114), ("COL", 115), ("DET", 116), ("HOU", 117),
   ("KC", 118), ("LAD", 119), ("WSH", 120), ("NYM", 121), ("OAK", 133),
   ("PIT", 134), ("SD", 135), ("SEA", 136), ("SF", 137), ("STL", 138),
   ("TB", 139), ("TEX", 140), ("TOR", 141), ("MIN", 142), ("PHI", 143),
   ("ATL", 144), ("CWS", 145), ("MIA", 146), ("NYY", 147), ("MIL", 158)]

/-- Lookup of a team ID by abbreviation (`models.GetTeamID`); `none` is `(0, false)`. -/
def GetTeamID (input : String) : Option Int := TeamAbbreviations.lookup input

/-- Resolves a team abbreviation or ID to a team ID (`api.ResolveTeamID`).  The
parameters stand for `strconv.Atoi` (`none` when it returns an error) and
`strings.ToUpper`; `strconv.Itoa` is the decimal rendering. -/
def ResolveTeamID (Atoi : String → Option Int) (ToUpper : String → String)
    (input : String) : Except String String :=
  match Atoi input with
  | some _ => .ok input
  | none =>
    let upper := ToUpper input
    match GetTeamID upper with
    | some id => .ok (sprintfD id)
    | none =>
      .error ("unknown team: " ++ input ++
        " (use team abbreviation like LAD, NYY, or team ID)")

/-- The team abbreviations listed in the help text of `get roster` (`cmd/get.go`). -/
def helpAbbreviations : List String :=
  ["LAA", "ARI", "BAL", "BOS", "CHC", "CIN", "CLE", "COL", "DET", "HOU",
   "KC", "LAD", "WSH", "NYM", "OAK", "PIT", "SD", "SEA", "SF", "STL",
   "TB", "TEX", "TOR", "MIN", "PHI", "ATL", "CWS", "MIA", "NYY", "MIL"]

/-- An upper-casing function that maps the ASCII small letters only; used to evaluate
the code on concrete inputs, where `strings.ToUpper` is a parameter. -/
def asciiUpper (s : String) : String := ⟨s.data.map Char.toUpper⟩

/-- A decimal parser used to evaluate the code on concrete inputs, where
`strconv.Atoi` is a parameter: an optional sign, then one or more ASCII digits, the
value within the 64-bit range. -/
def atoiDecimal (s : String) : Option Int :=
  let signed : Bool × List Char :=
    match s.data with
    | '-' :: rest => (true, rest)
    | '+' :: rest => (false, rest)
    | rest => (false, rest)
  if signed.2 = [] ∨ signed.2.all Char.isDigit = false then none
  else
    let n : Nat := signed.2.foldl (fun acc c => acc * 10 + (c.toNat - 48)) 0
    let v : Int := if signed.1 then -(n : Int) else (n : Int)
    if v < -(2 : Int) ^ 63 ∨ v > (2 : Int) ^ 63 - 1 then none else some v

/-- Sample statistics payload: the 2023 season, the 2024 season and the career line of
one hitter. -/
def statsThreeSplits : PlayerStatsResponse :=
  ⟨[⟨"Mookie Betts", [⟨"hitting",
      [⟨"2023", [("avg", ".307")]⟩, ⟨"2024", [("avg", ".289")]⟩,
       ⟨"", [("avg", ".294")]⟩]⟩]⟩]⟩

/-! ## Notions used by the invariants -/

/-- The navigation triple of a state: history, current view, current tab. -/
def nav (m : Model) : List View × View × Tab := (m.history, m.currentView, m.currentTab)

/-- The five navigation triples of the drill-down hierarchy and the two flat tabs. -/
def navShapes : List (List View × View × Tab) :=
  [([], .ViewTeams, .TabTeams), ([.ViewTeams], .ViewRoster, .TabTeams),
   ([.ViewTeams, .ViewRoster], .ViewPlayer, .TabTeams),
   ([], .ViewStandings, .TabStandings), ([], .ViewSchedule, .TabSchedule)]

/-- The selections a view needs are present: a team in the Roster view, a team and a
roster entry in the Player view. -/
def selectionPresent (m : Model) : Prop :=
  (m.currentView = .ViewRoster → m.selectedTeam ≠ none) ∧
  (m.currentView = .ViewPlayer → m.selectedTeam ≠ none ∧ m.selectedPlayer ≠ none)

/-- The matching indices are strictly increasing and are valid indices of the list
they address: the team list in the Teams view, the roster in the Roster and Player
views. -/
def filterValid (m : Model) : Prop :=
  m.filteredList.Pairwise (fun a b => a < b) ∧
  (m.currentView = .ViewTeams → ∀ i ∈ m.filteredList, 0 ≤ i ∧ i < len m.teams) ∧
  (m.currentView = .ViewRoster ∨ m.currentView = .ViewPlayer →
    ∀ i ∈ m.filteredList, 0 ≤ i ∧ i < len m.roster)

/-- The fields the navigation, selection and filter invariants read. -/
def invFields (m : Model) :
    List View × View × Tab × Option Team × Option RosterEntry × List Team ×
      List RosterEntry × List Int :=
  (m.history, m.currentView, m.currentTab, m.selectedTeam, m.selectedPlayer, m.teams,
    m.roster, m.filteredList)

/-- The fields outside the filter: everything but the filter mode, the text input, the
filter text, the matching indices and the cursor (and the spinner, keys and window
size, which a key in filter mode does not touch either). -/
def outsideFilter (m : Model) :
    View × Tab × List View × Option Team × Option RosterEntry ×
      (List Team × List RosterEntry × Option PlayerStatsResponse ×
        Option StandingsResponse × Option ScheduleResponse) × Bool × Option String :=
  (m.currentView, m.currentTab, m.history, m.selectedTeam, m.selectedPlayer, payloads m,
    m.loading, m.err)

/-- Second sample roster entry list: the roster of the first sample team. -/
def rosterLAD : List RosterEntry := [entryBetts, entryOhtani]

/-- The Shift+Tab key. -/
def keyShiftTab : Msg := keyPress .KeyOther "shift+tab"

/-- Messages that select the first team, load its roster, go back, move to the second
team, select it and press Enter again before its roster has arrived. -/
def staleRosterTrace : List Msg :=
  [.teamsLoadedMsg [teamLAD, teamNYY, teamBOS] none, keyEnter,
   .rosterLoadedMsg rosterLAD none, keyBackspace, keyDown, keyEnter, keyEnter]
/-! ## Theorems -/

/-- Claim C1: for `total > 0`, `visible ≥ 1` and a cursor with `0 ≤ cursor < total`,
the range `(start, stop)` of `calculateVisibleRange` contains the cursor,
`start ≤ cursor < stop`, and has `stop - start = min total visible` rows. -/
theorem calculateVisibleRange_contains_cursor (m : Model) (total visible : Int)
    (htotal : 0 < total) (hvis : 1 ≤ visible) (hlo : 0 ≤ m.cursor)
    (hhi : m.cursor < total) :
    (calculateVisibleRange m total visible).1 ≤ m.cursor ∧
      m.cursor < (calculateVisibleRange m total visible).2 ∧
      (calculateVisibleRange m total visible).2 - (calculateVisibleRange m total visible).1
        = min total visible := by
  have hdiv : visible.tdiv 2 = visible / 2 := Int.tdiv_eq_ediv (by omega) (by omega)
  have _ := htotal
  unfold calculateVisibleRange
  simp only [hdiv]
  split_ifs <;> simp only [] <;> omega

/-- Witness of claim C1: thirty rows, ten lines, cursor on row 15. -/
theorem calculateVisibleRange_contains_cursor_witness :
    (calculateVisibleRange { NewModel with cursor := 15 } 30 10).1 ≤ 15 ∧
      (15 : Int) < (calculateVisibleRange { NewModel with cursor := 15 } 30 10).2 ∧
      (calculateVisibleRange { NewModel with cursor := 15 } 30 10).2
        - (calculateVisibleRange { NewModel with cursor := 15 } 30 10).1 = min 30 10 :=
  calculateVisibleRange_contains_cursor { NewModel with cursor := 15 } 30 10
    (by decide) (by decide) (by decide) (by decide)

/-- Claim C2: for `total ≥ 0` and `visible ≥ 0` and any cursor, `calculateVisibleRange`
equals the reference window of the specification (whole list when it fits, else the
clamped centred start and `visible` rows); with 30 rows and 10 lines a cursor at 2
gives `(0, 10)` and a cursor at 15 gives `(10, 20)`. -/
theorem calculateVisibleRange_eq_specWindow (m : Model) (total visible : Int)
    (htotal : 0 ≤ total) (hvis : 0 ≤ visible) :
    calculateVisibleRange m total visible = specWindow total visible m.cursor ∧
      (m.cursor = 2 → calculateVisibleRange m 30 10 = (0, 10)) ∧
      (m.cursor = 15 → calculateVisibleRange m 30 10 = (10, 20)) := by
  have hdiv : visible.tdiv 2 = visible / 2 := Int.tdiv_eq_ediv (by omega) (by omega)
  have _ := htotal
  refine ⟨?_, ?_, ?_⟩
  · unfold calculateVisibleRange specWindow specClamp
    simp only [hdiv]
    split_ifs <;> (apply Prod.ext <;> simp only [] <;> omega)
  · intro h
    simp [calculateVisibleRange, h]
    decide
  · intro h
    simp [calculateVisibleRange, h]
    decide

/-- Witness of claim C2: thirty rows and ten lines, with the cursor on row 15 and on
row 2. -/
theorem calculateVisibleRange_eq_specWindow_witness :
    (0 : Int) ≤ 30 ∧ (0 : Int) ≤ 10 ∧
      calculateVisibleRange { NewModel with cursor := 15 } 30 10 = specWindow 30 10 15 ∧
      calculateVisibleRange { NewModel with cursor := 15 } 30 10 = (10, 20) ∧
      calculateVisibleRange { NewModel with cursor := 2 } 30 10 = (0, 10) :=
  ⟨by decide, by decide,
    (calculateVisibleRange_eq_specWindow { NewModel with cursor := 15 } 30 10
      (by decide) (by decide)).1,
    (calculateVisibleRange_eq_specWindow { NewModel with cursor := 15 } 30 10
      (by decide) (by decide)).2.2 rfl,
    (calculateVisibleRange_eq_specWindow { NewModel with cursor := 2 } 30 10
      (by decide) (by decide)).2.1 rfl⟩

/-- Claim C3, evaluated on the code: after three teams are loaded, the cursor is moved
to the last one and a refresh completes with a single team, the reached state has a
non-empty effective list of length 1 and the cursor at 2, outside it. -/
theorem cursor_out_of_range_after_reload (lower : String → String) :
    ∃ m : Model, Reachable lower m ∧ run lower NewModel reloadShorterTrace = some m ∧
      currentListLength m = 1 ∧ m.cursor = 2 ∧
      ¬ (0 ≤ m.cursor ∧ m.cursor < currentListLength m) := by
  refine ⟨_, ⟨reloadShorterTrace, rfl⟩, rfl, ?_, ?_, ?_⟩ <;> decide


/-- Moving the cursor does not change the length of the effective list. -/
theorem currentListLength_moveCursor (m : Model) (d : Int) :
    currentListLength (moveCursor m d) = currentListLength m := by
  unfold moveCursor
  simp only []
  split_ifs <;> rfl

/-- One step of `moveCursor` by `+1` or `-1` keeps the cursor inside a non-empty
effective list. -/
theorem moveCursor_in_range (m : Model) (d : Int) (hd : d = 1 ∨ d = -1)
    (hn : 0 < currentListLength m) (hlo : 0 ≤ m.cursor)
    (hhi : m.cursor < currentListLength m) :
    0 ≤ (moveCursor m d).cursor ∧ (moveCursor m d).cursor < currentListLength m := by
  unfold moveCursor
  simp only []
  rcases hd with rfl | rfl <;> split_ifs <;> (try simp only [] at *) <;> omega

/-- A sequence of `moveCursor` steps by `+1` or `-1` keeps the length of the effective
list and keeps the cursor inside it. -/
theorem moveCursor_seq_in_range (ds : List Int) (hds : ∀ d ∈ ds, d = 1 ∨ d = -1) :
    ∀ m : Model, 0 < currentListLength m → 0 ≤ m.cursor →
      m.cursor < currentListLength m →
      currentListLength (ds.foldl moveCursor m) = currentListLength m ∧
        0 ≤ (ds.foldl moveCursor m).cursor ∧
        (ds.foldl moveCursor m).cursor < currentListLength m := by
  induction ds with
  | nil => intro m _ hlo hhi; exact ⟨rfl, hlo, hhi⟩
  | cons d ds ih =>
    intro m hn hlo hhi
    have hd : d = 1 ∨ d = -1 := hds d (List.mem_cons_self d ds)
    have hstep := moveCursor_in_range m d hd hn hlo hhi
    have hlen := currentListLength_moveCursor m d
    have hrest := ih (fun e he => hds e (List.mem_cons_of_mem d he)) (moveCursor m d)
      (by rw [hlen]; exact hn) hstep.1 (by rw [hlen]; exact hstep.2)
    rw [hlen] at hrest
    exact hrest

/-- Claim C4: on an effective list of length `n > 0` with the cursor in `[0, n)`,
`moveCursor 1` sets the cursor to `(cursor + 1) mod n` and `moveCursor (-1)` to
`(cursor + n - 1) mod n`; any sequence of such moves keeps `0 ≤ cursor < n`; and on an
effective list of length 0 `moveCursor` changes nothing. -/
theorem moveCursor_wraps (m : Model) :
    (0 < currentListLength m → 0 ≤ m.cursor → m.cursor < currentListLength m →
      (moveCursor m 1).cursor = (m.cursor + 1) % currentListLength m ∧
      (moveCursor m (-1)).cursor
        = (m.cursor + currentListLength m - 1) % currentListLength m ∧
      ∀ ds : List Int, (∀ d ∈ ds, d = 1 ∨ d = -1) →
        currentListLength (ds.foldl moveCursor m) = currentListLength m ∧
          0 ≤ (ds.foldl moveCursor m).cursor ∧
          (ds.foldl moveCursor m).cursor < currentListLength m) ∧
    (currentListLength m = 0 → ∀ d : Int, moveCursor m d = m) := by
  refine ⟨fun hn hlo hhi => ⟨?_, ?_, ?_⟩, ?_⟩
  · unfold moveCursor
    simp only []
    split_ifs with h0 h1 h2
    · omega
    · omega
    · have hc : m.cursor + 1 = currentListLength m := by simp only [] at h2; omega
      simp only [hc, Int.emod_self]
    · have hc : m.cursor + 1 < currentListLength m := by simp only [] at h2; omega
      simp only []
      rw [Int.emod_eq_of_lt (by omega) hc]
  · unfold moveCursor
    simp only []
    split_ifs with h0 h1 h2
    · omega
    · have hc : m.cursor = 0 := by simp only [] at h1; omega
      simp only [hc]
      rw [Int.emod_eq_of_lt (by omega) (by omega)]
      omega
    · simp only [] at h1 h2; omega
    · have hc : 0 ≤ m.cursor + -1 := by simp only [] at h1; omega
      simp only []
      have hsum : m.cursor + currentListLength m - 1
          = (m.cursor + -1) + currentListLength m := by omega
      rw [hsum, Int.add_emod_self, Int.emod_eq_of_lt hc (by omega)]
  · intro ds hds
    exact moveCursor_seq_in_range ds hds m hn hlo hhi
  · intro h0 d
    unfold moveCursor
    simp only [h0, if_true]

/-- Witness of claim C4: three teams loaded and the cursor on the last one; and the
initial model, whose effective list is empty. -/
theorem moveCursor_wraps_witness :
    (moveCursor { NewModel with teams := [teamLAD, teamNYY, teamBOS], cursor := 2 } 1).cursor
        = 0 ∧
      (moveCursor { NewModel with teams := [teamLAD, teamNYY, teamBOS], cursor := 2 }
        (-1)).cursor = 1 ∧
      (0 ≤ (List.foldl moveCursor
          { NewModel with teams := [teamLAD, teamNYY, teamBOS], cursor := 2 }
          [1, 1, -1]).cursor ∧
        (List.foldl moveCursor
          { NewModel with teams := [teamLAD, teamNYY, teamBOS], cursor := 2 }
          [1, 1, -1]).cursor < 3) ∧
      moveCursor NewModel 1 = NewModel :=
  ⟨((moveCursor_wraps { NewModel with teams := [teamLAD, teamNYY, teamBOS], cursor := 2 }).1
      (by decide) (by decide) (by decide)).1,
   ((moveCursor_wraps { NewModel with teams := [teamLAD, teamNYY, teamBOS], cursor := 2 }).1
      (by decide) (by decide) (by decide)).2.1,
   (((moveCursor_wraps { NewModel with teams := [teamLAD, teamNYY, teamBOS], cursor := 2 }).1
      (by decide) (by decide) (by decide)).2.2 [1, 1, -1] (by decide)).2,
   (moveCursor_wraps NewModel).2 (by decide) 1⟩

/-- An index inside the bounds of a list reads an element. -/
theorem index_of_lt {α : Type} (xs : List α) (i : Int) (h0 : 0 ≤ i) (hlt : i < len xs) :
    ∃ x, index xs i = some x := by
  unfold len at hlt
  have hi : i.toNat < xs.length := by omega
  refine ⟨xs.get ⟨i.toNat, hi⟩, ?_⟩
  unfold index
  rw [if_neg (by omega)]
  exact List.get?_eq_get hi

/-- What `handleSelect` returns in the Teams view when the cursor addresses team `t`. -/
theorem handleSelect_teams (m : Model) (idx : Int) (t : Team)
    (hview : m.currentView = .ViewTeams) (hne : 0 < len m.teams)
    (hidx : getActualIndex m = some idx) (hlt : idx < len m.teams)
    (ht : index m.teams idx = some t) :
    handleSelect m =
      some (resetFilter { m with selectedTeam := some t,
                                 history := m.history ++ [.ViewTeams],
                                 currentView := .ViewRoster, cursor := 0, loading := true },
        [Cmd.spinnerTick, Cmd.loadRoster (sprintfD t.ID)]) := by
  unfold handleSelect
  simp only [hview, hidx, ht, pushHistory]
  rw [if_pos hne, if_pos hlt]

/-- What `handleSelect` returns in the Roster view when the cursor addresses entry `r`. -/
theorem handleSelect_roster (m : Model) (idx : Int) (r : RosterEntry)
    (hview : m.currentView = .ViewRoster) (hne : 0 < len m.roster)
    (hidx : getActualIndex m = some idx) (hlt : idx < len m.roster)
    (hr : index m.roster idx = some r) :
    handleSelect m =
      some ({ m with selectedPlayer := some r, playerStats := none,
                     history := m.history ++ [.ViewRoster],
                     currentView := .ViewPlayer, cursor := 0, loading := true },
        [Cmd.spinnerTick, Cmd.loadPlayerStats (sprintfD r.Person.ID)]) := by
  unfold handleSelect
  simp only [hview, hidx, hr, pushHistory]
  rw [if_pos hne, if_pos hlt]

/-- Back after a push: `handleBack` on a history `h ++ [v]` restores view `v` and
history `h`. -/
theorem handleBack_push (m : Model) (h : List View) (v : View)
    (hh : m.history = h ++ [v]) :
    (handleBack m).1.currentView = v ∧ (handleBack m).1.history = h := by
  unfold handleBack
  simp [hh, resetFilter]

/-- When `handleSelect` changes the view it has pushed the old view on the history. -/
theorem handleSelect_pushes (m m1 : Model) (cmds : List Cmd)
    (h : handleSelect m = some (m1, cmds)) (hchg : m1.currentView ≠ m.currentView) :
    m1.history = m.history ++ [m.currentView] := by
  unfold handleSelect at h
  split at h
  · split_ifs at h with h1
    · split at h
      · exact absurd h (by simp)
      · split_ifs at h with h2
        · split at h
          · exact absurd h (by simp)
          · simp only [Option.some.injEq, Prod.mk.injEq] at h
            rw [← h.1]
            simp [resetFilter, pushHistory, *]
        · simp only [Option.some.injEq, Prod.mk.injEq] at h
          exact absurd (by rw [← h.1]) hchg
    · simp only [Option.some.injEq, Prod.mk.injEq] at h
      exact absurd (by rw [← h.1]) hchg
  · split_ifs at h with h1
    · split at h
      · exact absurd h (by simp)
      · split_ifs at h with h2
        · split at h
          · exact absurd h (by simp)
          · simp only [Option.some.injEq, Prod.mk.injEq] at h
            rw [← h.1]
            simp [pushHistory, *]
        · simp only [Option.some.injEq, Prod.mk.injEq] at h
          exact absurd (by rw [← h.1]) hchg
    · simp only [Option.some.injEq, Prod.mk.injEq] at h
      exact absurd (by rw [← h.1]) hchg
  · simp only [Option.some.injEq, Prod.mk.injEq] at h
    exact absurd (by rw [← h.1]) hchg


/-- Claim C5, refuted as stated: in the reachable Teams-view state left by a visit to a
player, Select takes effect (it opens the roster of the first team), and the returned
state still holds the previously selected roster entry and the cached player
statistics. -/
theorem handleSelect_teams_keeps_player_counterexample :
    ∃ m m1 : Model, ∃ cmds : List Cmd,
      run asciiLower NewModel visitPlayerTrace = some m ∧
      m.currentView = .ViewTeams ∧ 0 < len m.teams ∧ getActualIndex m = some 0 ∧
      handleSelect m = some (m1, cmds) ∧ m1.currentView = .ViewRoster ∧
      m1.selectedTeam = some teamLAD ∧
      m1.selectedPlayer = some entryBetts ∧ m1.playerStats = some statsBetts ∧
      ¬ (m1.selectedPlayer = none ∧ m1.playerStats = none) := by
  refine ⟨_, _, _, rfl, rfl, by decide, rfl, rfl, rfl, rfl, rfl, rfl, by decide⟩

/-- Claim C5, amended: in the Teams view, when Select takes effect (non-empty team
list, actual index `idx` with `0 ≤ idx < len teams`), `handleSelect` returns a state
in the Roster view whose selected roster entry and cached player statistics are
exactly those of the state before. -/
theorem handleSelect_teams_keeps_player (m : Model) (idx : Int)
    (hview : m.currentView = .ViewTeams) (hne : 0 < len m.teams)
    (hidx : getActualIndex m = some idx) (h0 : 0 ≤ idx) (hlt : idx < len m.teams) :
    ∃ m1 : Model, ∃ cmds : List Cmd, handleSelect m = some (m1, cmds) ∧
      m1.currentView = .ViewRoster ∧
      m1.selectedPlayer = m.selectedPlayer ∧ m1.playerStats = m.playerStats := by
  obtain ⟨t, ht⟩ := index_of_lt m.teams idx h0 hlt
  exact ⟨_, _, handleSelect_teams m idx t hview hne hidx hlt ht, rfl, rfl, rfl⟩

/-- Witness of the amended claim C5: three teams loaded, cursor on the second, a
roster entry and player statistics left from an earlier visit. -/
theorem handleSelect_teams_keeps_player_witness :
    ∃ m1 : Model, ∃ cmds : List Cmd,
      handleSelect { NewModel with teams := [teamLAD, teamNYY, teamBOS], cursor := 1,
                                   selectedPlayer := some entryBetts,
                                   playerStats := some statsBetts } = some (m1, cmds) ∧
      m1.currentView = .ViewRoster ∧
      m1.selectedPlayer = some entryBetts ∧ m1.playerStats = some statsBetts :=
  handleSelect_teams_keeps_player
    { NewModel with teams := [teamLAD, teamNYY, teamBOS], cursor := 1,
                    selectedPlayer := some entryBetts, playerStats := some statsBetts }
    1 rfl (by decide) rfl (by decide) (by decide)

/-- Claim C6, refuted as stated: the reachable state left by a reload with a shorter
team list is in the Teams view with an empty history and a non-empty team list, yet
Select does nothing there, so the sequence Select, roster load, Select, Back, Back
stays in the Teams view throughout and never passes through Roster or Player. -/
theorem drillDown_counterexample :
    ∃ m : Model, run asciiLower NewModel reloadShorterTrace = some m ∧
      m.currentView = .ViewTeams ∧ m.history = [] ∧ m.teams ≠ [] ∧
      handleSelect m = some (m, []) ∧
      (∃ m5 : Model, drillDownViews asciiLower m [entryBetts, entryOhtani] =
        some ([.ViewTeams, .ViewTeams, .ViewTeams, .ViewTeams, .ViewTeams], m5)) := by
  refine ⟨_, rfl, rfl, rfl, by decide, rfl, _, rfl⟩

/-- Claim C6, amended: whenever Select changes the view, an immediately following Back
restores the view and the history that held before the Select; and from a Teams-view
state with empty history, a non-empty team list and a cursor whose actual index
`idx` satisfies `0 ≤ idx < len teams`, the sequence Select, successful load of a
non-empty roster, Select, Back, Back passes through Roster, Roster, Player, Roster and
ends in the Teams view with an empty history. -/
theorem select_then_back_restores (lower : String → String) (m : Model) :
    (∀ (m1 : Model) (cmds : List Cmd), handleSelect m = some (m1, cmds) →
        m1.currentView ≠ m.currentView →
        (handleBack m1).1.currentView = m.currentView ∧
          (handleBack m1).1.history = m.history) ∧
    (∀ (idx : Int) (roster : List RosterEntry), m.currentView = .ViewTeams →
        m.history = [] → 0 < len m.teams → getActualIndex m = some idx → 0 ≤ idx →
        idx < len m.teams → 0 < len roster →
        ∃ m5 : Model, drillDownViews lower m roster =
            some ([.ViewRoster, .ViewRoster, .ViewPlayer, .ViewRoster, .ViewTeams], m5) ∧
          m5.currentView = .ViewTeams ∧ m5.history = []) := by
  constructor
  · intro m1 cmds h hchg
    exact handleBack_push m1 m.history m.currentView (handleSelect_pushes m m1 cmds h hchg)
  · intro idx roster hview hhist hne hidx h0 hlt hros
    obtain ⟨t, ht⟩ := index_of_lt m.teams idx h0 hlt
    obtain ⟨r, hr⟩ := index_of_lt roster 0 (le_refl 0) hros
    let m1 : Model := resetFilter { m with
      selectedTeam := some t, history := m.history ++ [.ViewTeams],
      currentView := .ViewRoster, cursor := 0, loading := true }
    let m2 : Model := resetFilter { m1 with loading := false, roster := roster }
    let m3 : Model := { m2 with
      selectedPlayer := some r, playerStats := none,
      history := m2.history ++ [.ViewRoster], currentView := .ViewPlayer, cursor := 0,
      loading := true }
    have h1 : handleSelect m = some (m1, [Cmd.spinnerTick, Cmd.loadRoster (sprintfD t.ID)]) :=
      handleSelect_teams m idx t hview hne hidx hlt ht
    have h2 : Update lower m1 (.rosterLoadedMsg roster none) = some (m2, []) := rfl
    have h3 : handleSelect m2 =
        some (m3, [Cmd.spinnerTick, Cmd.loadPlayerStats (sprintfD r.Person.ID)]) :=
      handleSelect_roster m2 0 r rfl hros
        (by simp [getActualIndex, resetFilter, len, m2, m1]) hros hr
    have hb1 := handleBack_push m3 m2.history .ViewRoster rfl
    have hm2 : m2.history = [] ++ [.ViewTeams] := by simp [m2, m1, resetFilter, hhist]
    have hb2 := handleBack_push (handleBack m3).1 [] .ViewTeams (by rw [hb1.2]; exact hm2)
    refine ⟨(handleBack (handleBack m3).1).1, ?_, hb2.1, hb2.2⟩
    unfold drillDownViews
    simp only [h1, h2, h3, hb1.1, hb2.1]
    rfl

/-- Witness of the amended claim C6: three teams loaded, cursor on the second, and a
roster of two entries. -/
theorem select_then_back_restores_witness :
    (∃ m1 : Model, ∃ cmds : List Cmd,
      handleSelect { NewModel with teams := [teamLAD, teamNYY, teamBOS], cursor := 1 }
        = some (m1, cmds) ∧
      m1.currentView = .ViewRoster ∧
      (handleBack m1).1.currentView = .ViewTeams ∧ (handleBack m1).1.history = []) ∧
    (∃ m5 : Model,
      drillDownViews asciiLower
          { NewModel with teams := [teamLAD, teamNYY, teamBOS], cursor := 1 }
          [entryBetts, entryOhtani] =
        some ([.ViewRoster, .ViewRoster, .ViewPlayer, .ViewRoster, .ViewTeams], m5) ∧
      m5.currentView = .ViewTeams ∧ m5.history = []) :=
  ⟨⟨_, _, rfl, rfl,
      (select_then_back_restores asciiLower
        { NewModel with teams := [teamLAD, teamNYY, teamBOS], cursor := 1 }).1
        _ _ rfl (by decide)⟩,
    (select_then_back_restores asciiLower
        { NewModel with teams := [teamLAD, teamNYY, teamBOS], cursor := 1 }).2
      1 [entryBetts, entryOhtani] rfl rfl (by decide) rfl (by decide) (by decide)
      (by decide)⟩

/-- What `switchToTab` resets: the tab is kept, the cursor is 0, the filter and the
history are empty and the view is the default view of the tab. -/
theorem switchToTab_resets (m : Model) :
    (switchToTab m).1.currentTab = m.currentTab ∧ (switchToTab m).1.cursor = 0 ∧
      (switchToTab m).1.filterText = "" ∧ (switchToTab m).1.filteredList = [] ∧
      (switchToTab m).1.history = [] ∧
      (switchToTab m).1.currentView = defaultView m.currentTab := by
  cases hm : m.currentTab <;>
    simp only [switchToTab, resetFilter, hm] <;>
    (split_ifs <;> exact ⟨rfl, rfl, rfl, rfl, rfl, rfl⟩)

/-- The tab arithmetic of `nextTab` and `prevTab` stays among the three tabs. -/
theorem tab_arith (t : Tab) :
    (Tab.ofInt ((t.toInt + 1).tmod 3)).toInt = (t.toInt + 1) % 3 ∧
      (Tab.ofInt ((t.toInt + 2).tmod 3)).toInt = (t.toInt + 2) % 3 := by
  cases t <;> decide

/-- Claim C7: from every state, `nextTab` moves the tab to `(tab + 1) mod 3` and
`prevTab` to `(tab + 2) mod 3`, and both return cursor 0, an empty filter text, no
matching indices, an empty history and the default view of the new tab. -/
theorem tab_switch_resets (m : Model) :
    ((nextTab m).1.currentTab.toInt = (m.currentTab.toInt + 1) % 3 ∧
      (nextTab m).1.cursor = 0 ∧ (nextTab m).1.filterText = "" ∧
      (nextTab m).1.filteredList = [] ∧ (nextTab m).1.history = [] ∧
      (nextTab m).1.currentView = defaultView (nextTab m).1.currentTab) ∧
    ((prevTab m).1.currentTab.toInt = (m.currentTab.toInt + 2) % 3 ∧
      (prevTab m).1.cursor = 0 ∧ (prevTab m).1.filterText = "" ∧
      (prevTab m).1.filteredList = [] ∧ (prevTab m).1.history = [] ∧
      (prevTab m).1.currentView = defaultView (prevTab m).1.currentTab) := by
  constructor
  · obtain ⟨h1, h2, h3, h4, h5, h6⟩ := switchToTab_resets
      { m with currentTab := Tab.ofInt ((m.currentTab.toInt + 1).tmod 3) }
    unfold nextTab
    refine ⟨?_, h2, h3, h4, h5, ?_⟩
    · rw [h1]; exact (tab_arith m.currentTab).1
    · rw [h1]; exact h6
  · obtain ⟨h1, h2, h3, h4, h5, h6⟩ := switchToTab_resets
      { m with currentTab := Tab.ofInt ((m.currentTab.toInt + 2).tmod 3) }
    unfold prevTab
    refine ⟨?_, h2, h3, h4, h5, ?_⟩
    · rw [h1]; exact (tab_arith m.currentTab).2
    · rw [h1]; exact h6

/-- Claim C8: for every state and each of the five resource kinds, a load completion
carrying an error `e` (whatever payload comes with it) returns a state with
`loading = false`, the error slot holding `e`, and all five cached payloads
unchanged. -/
theorem load_error_keeps_payloads (lower : String → String) (m : Model) (e : String)
    (teams : List Team) (roster : List RosterEntry) (stats : Option PlayerStatsResponse)
    (standings : Option StandingsResponse) (schedule : Option ScheduleResponse) :
    loadErrorOutcome lower m (.teamsLoadedMsg teams (some e)) e ∧
      loadErrorOutcome lower m (.rosterLoadedMsg roster (some e)) e ∧
      loadErrorOutcome lower m (.playerStatsLoadedMsg stats (some e)) e ∧
      loadErrorOutcome lower m (.standingsLoadedMsg standings (some e)) e ∧
      loadErrorOutcome lower m (.scheduleLoadedMsg schedule (some e)) e :=
  ⟨⟨_, rfl, rfl, rfl, rfl⟩, ⟨_, rfl, rfl, rfl, rfl⟩, ⟨_, rfl, rfl, rfl, rfl⟩,
    ⟨_, rfl, rfl, rfl, rfl⟩, ⟨_, rfl, rfl, rfl, rfl⟩⟩


/-- The matching indices collected by a loop, in the order the loop visits them. -/
theorem appendMatches_eq {α : Type} (p : α → Bool) (xs : List α) :
    ∀ (i : Int) (acc : List Int),
      appendMatches p xs i acc = acc ++ appendMatches p xs i [] := by
  induction xs with
  | nil => intro i acc; simp [appendMatches]
  | cons x xs ih =>
    intro i acc
    simp only [appendMatches]
    by_cases hp : p x = true
    · simp only [hp, if_true, List.nil_append]
      rw [ih (i + 1) (acc ++ [i]), ih (i + 1) [i], List.append_assoc]
    · simp only [hp, if_false, Bool.false_eq_true]
      exact ih (i + 1) acc

/-- Reading the list at the matching indices gives the items that satisfy the
condition of the loop. -/
theorem filterMap_appendMatches {α : Type} (p : α → Bool) (xs : List α) :
    ∀ pre : List α,
      (appendMatches p xs (pre.length : Int) []).filterMap (index (pre ++ xs))
        = xs.filter p := by
  induction xs with
  | nil => intro pre; simp [appendMatches]
  | cons x xs ih =>
    intro pre
    have hidx : index (pre ++ x :: xs) (pre.length : Int) = some x := by
      unfold index
      rw [if_neg (by omega), Int.toNat_ofNat, List.get?_eq_getElem?,
        List.getElem?_append_right (le_refl _)]
      simp
    have hnext : ((pre.length : Int) + 1) = ((pre ++ [x]).length : Int) := by
      simp
    have hcat : pre ++ x :: xs = (pre ++ [x]) ++ xs := by simp
    simp only [appendMatches]
    by_cases hp : p x = true
    · simp only [hp, if_true, List.nil_append]
      rw [appendMatches_eq, List.filterMap_append]
      simp only [List.filterMap_cons, hidx, List.filterMap_nil, List.singleton_append]
      rw [hnext, hcat, ih (pre ++ [x]), List.filter_cons_of_pos hp]
    · simp only [hp, if_false, Bool.false_eq_true]
      rw [hnext, hcat, ih (pre ++ [x])]
      rw [List.filter_cons_of_neg hp]

/-- When every item satisfies the condition, the loop collects every index. -/
theorem appendMatches_all {α : Type} (p : α → Bool) (xs : List α)
    (hall : ∀ x ∈ xs, p x = true) :
    ∀ i : Int, appendMatches p xs i [] = (List.range xs.length).map (fun k : Nat => i + (k : Int)) := by
  induction xs with
  | nil => intro i; simp [appendMatches]
  | cons x xs ih =>
    intro i
    have hx : p x = true := hall x (List.mem_cons_self x xs)
    simp only [appendMatches, hx, if_true, List.nil_append]
    rw [appendMatches_eq, ih (fun y hy => hall y (List.mem_cons_of_mem x hy)) (i + 1)]
    rw [List.length_cons, List.range_succ_eq_map]
    simp only [List.map_cons, List.map_map, Nat.cast_zero, add_zero, List.singleton_append]
    congr 1
    apply List.map_congr_left
    intro k _
    simp only [Function.comp, Nat.succ_eq_add_one, Nat.cast_add, Nat.cast_one]
    omega

/-- When no item satisfies the condition, the loop collects nothing. -/
theorem appendMatches_none {α : Type} (p : α → Bool) (xs : List α)
    (hnone : ∀ x ∈ xs, p x = false) :
    ∀ i : Int, appendMatches p xs i [] = [] := by
  induction xs with
  | nil => intro i; rfl
  | cons x xs ih =>
    intro i
    have hx : p x = false := hnone x (List.mem_cons_self x xs)
    simp only [appendMatches, hx, Bool.false_eq_true, if_false]
    exact ih (fun y hy => hnone y (List.mem_cons_of_mem x hy)) (i + 1)


/-- With an empty filter text `applyFilter` leaves no matching indices. -/
theorem applyFilter_empty (lower : String → String) (m : Model)
    (h : m.filterText = "") : applyFilter lower m = { m with filteredList := [] } := by
  unfold applyFilter
  rw [if_pos h]

/-- The matching indices `applyFilter` computes in the Teams view. -/
theorem applyFilter_teams (lower : String → String) (m : Model)
    (hview : m.currentView = .ViewTeams) (h : m.filterText ≠ "") :
    (applyFilter lower m).filteredList
      = appendMatches (teamMatches lower (lower m.filterText)) m.teams 0 [] := by
  unfold applyFilter
  rw [if_neg h]
  simp only [hview]
  split_ifs <;> rfl

/-- The matching indices `applyFilter` computes in the Roster view. -/
theorem applyFilter_roster (lower : String → String) (m : Model)
    (hview : m.currentView = .ViewRoster) (h : m.filterText ≠ "") :
    (applyFilter lower m).filteredList
      = appendMatches (rosterMatches lower (lower m.filterText)) m.roster 0 [] := by
  unfold applyFilter
  rw [if_neg h]
  simp only [hview]
  split_ifs <;> rfl

/-- Fields `applyFilter` never writes: the view and the two lists. -/
theorem applyFilter_frame (lower : String → String) (m : Model) :
    (applyFilter lower m).currentView = m.currentView ∧
      (applyFilter lower m).teams = m.teams ∧ (applyFilter lower m).roster = m.roster := by
  unfold applyFilter
  split_ifs with h
  · exact ⟨rfl, rfl, rfl⟩
  · cases hv : m.currentView <;> simp only [hv] <;> split_ifs <;> exact ⟨rfl, rfl, rfl⟩

/-- The index slice of a list is the loop result when every item matches. -/
theorem appendMatches_all_zero {α : Type} (p : α → Bool) (xs : List α)
    (hall : ∀ x ∈ xs, p x = true) :
    appendMatches p xs 0 [] = identityIndices xs.length := by
  rw [appendMatches_all p xs hall 0]
  unfold identityIndices
  apply List.map_congr_left
  intro k _
  omega

/-- Filtering a list a second time by the same condition selects all of it. -/
theorem refilter_selects_all {α : Type} (p : α → Bool) (xs : List α) :
    (appendMatches p xs 0 []).filterMap (index xs) = xs.filter p ∧
      appendMatches p (xs.filter p) 0 [] = identityIndices (xs.filter p).length ∧
      (appendMatches p (xs.filter p) 0 []).filterMap (index (xs.filter p))
        = xs.filter p := by
  have h1 : (appendMatches p xs 0 []).filterMap (index xs) = xs.filter p :=
    filterMap_appendMatches p xs []
  have hall : ∀ x ∈ xs.filter p, p x = true := fun x hx => (List.mem_filter.mp hx).2
  have h3 : (appendMatches p (xs.filter p) 0 []).filterMap (index (xs.filter p))
      = (xs.filter p).filter p := filterMap_appendMatches p (xs.filter p) []
  rw [List.filter_filter] at h3
  simp only [Bool.and_self] at h3
  exact ⟨h1, appendMatches_all_zero p _ hall, h3⟩

/-- Claim C9: filtering is idempotent.  For every team list (resp. roster) and needle,
applying the filter with the same needle to the sub-list of items it selected marks
every index of that sub-list and selects that sub-list again. -/
theorem filter_idempotent (lower : String → String) (m : Model) (needle : String) :
    ((applyFilter lower { m with
          currentView := .ViewTeams, filterText := needle,
          teams := teamsSelected lower
            { m with currentView := .ViewTeams, filterText := needle } }).filteredList
        = identityIndices (teamsSelected lower
            { m with currentView := .ViewTeams, filterText := needle }).length ∧
      teamsSelected lower { m with
          currentView := .ViewTeams, filterText := needle,
          teams := teamsSelected lower
            { m with currentView := .ViewTeams, filterText := needle } }
        = teamsSelected lower { m with currentView := .ViewTeams, filterText := needle }) ∧
    ((applyFilter lower { m with
          currentView := .ViewRoster, filterText := needle,
          roster := rosterSelected lower
            { m with currentView := .ViewRoster, filterText := needle } }).filteredList
        = identityIndices (rosterSelected lower
            { m with currentView := .ViewRoster, filterText := needle }).length ∧
      rosterSelected lower { m with
          currentView := .ViewRoster, filterText := needle,
          roster := rosterSelected lower
            { m with currentView := .ViewRoster, filterText := needle } }
        = rosterSelected lower
            { m with currentView := .ViewRoster, filterText := needle }) := by
  by_cases hn : needle = ""
  · subst hn
    simp [teamsSelected, rosterSelected, applyFilter_empty, identityIndices]
  · constructor
    · have hsel : teamsSelected lower
          { m with currentView := .ViewTeams, filterText := needle }
          = m.teams.filter (teamMatches lower (lower needle)) := by
        unfold teamsSelected
        rw [applyFilter_teams lower _ rfl hn]
        exact (refilter_selects_all _ m.teams).1
      rw [hsel]
      unfold teamsSelected
      rw [applyFilter_teams lower _ rfl hn]
      exact (refilter_selects_all _ m.teams).2
    · have hsel : rosterSelected lower
          { m with currentView := .ViewRoster, filterText := needle }
          = m.roster.filter (rosterMatches lower (lower needle)) := by
        unfold rosterSelected
        rw [applyFilter_roster lower _ rfl hn]
        exact (refilter_selects_all _ m.roster).1
      rw [hsel]
      unfold rosterSelected
      rw [applyFilter_roster lower _ rfl hn]
      exact (refilter_selects_all _ m.roster).2


/-- Claim C10, refuted as stated: after three teams are loaded and the needle "zz",
which matches none of them, is typed in filter mode, the matching indices are empty
but the effective list is the full list: `currentListLength` returns 3 and
`getTeamIndicesToShow` returns `[0, 1, 2]`, not 0 and the empty sequence. -/
theorem no_match_counterexample :
    ∃ m : Model, run asciiLower NewModel noMatchTrace = some m ∧
      m.currentView = .ViewTeams ∧ m.teams = [teamLAD, teamNYY, teamBOS] ∧
      m.filterText = "zz" ∧
      (∀ t ∈ m.teams, teamMatches asciiLower (asciiLower m.filterText) t = false) ∧
      applyFilter asciiLower m = m ∧ m.filteredList = [] ∧
      currentListLength m = 3 ∧ getTeamIndicesToShow m = [0, 1, 2] ∧
      ¬ (currentListLength m = 0 ∧ getTeamIndicesToShow m = []) := by
  refine ⟨_, rfl, rfl, rfl, rfl, ?_, ?_, rfl, ?_, ?_, ?_⟩ <;> decide

/-- Claim C10, amended: for a non-empty needle that matches no item of a non-empty team
list (resp. roster), `applyFilter` leaves no matching indices and the effective list
is the full list, `currentListLength` returning the length of the list and
`getTeamIndicesToShow` (resp. `getRosterIndicesToShow`) every index, exactly as with
the empty needle. -/
theorem no_match_shows_full_list (lower : String → String) (m : Model)
    (hneedle : m.filterText ≠ "") :
    (m.currentView = .ViewTeams → m.teams ≠ [] →
      (∀ t ∈ m.teams, teamMatches lower (lower m.filterText) t = false) →
      (applyFilter lower m).filteredList = [] ∧
        currentListLength (applyFilter lower m) = len m.teams ∧
        getTeamIndicesToShow (applyFilter lower m) = identityIndices m.teams.length ∧
        currentListLength (applyFilter lower { m with filterText := "" }) = len m.teams ∧
        getTeamIndicesToShow (applyFilter lower { m with filterText := "" })
          = identityIndices m.teams.length) ∧
    (m.currentView = .ViewRoster → m.roster ≠ [] →
      (∀ r ∈ m.roster, rosterMatches lower (lower m.filterText) r = false) →
      (applyFilter lower m).filteredList = [] ∧
        currentListLength (applyFilter lower m) = len m.roster ∧
        getRosterIndicesToShow (applyFilter lower m) = identityIndices m.roster.length ∧
        currentListLength (applyFilter lower { m with filterText := "" }) = len m.roster ∧
        getRosterIndicesToShow (applyFilter lower { m with filterText := "" })
          = identityIndices m.roster.length) := by
  obtain ⟨hv, ht, hr⟩ := applyFilter_frame lower m
  constructor
  · intro hview _ hnone
    have hfl : (applyFilter lower m).filteredList = [] := by
      rw [applyFilter_teams lower m hview hneedle]
      exact appendMatches_none _ _ hnone 0
    have he := applyFilter_empty lower { m with filterText := "" } rfl
    refine ⟨hfl, ?_, ?_, ?_, ?_⟩
    · simp [currentListLength, hfl, hv, ht, hview, len]
    · simp [getTeamIndicesToShow, hfl, ht, len]
    · rw [he]; simp [currentListLength, hview, len]
    · rw [he]; simp [getTeamIndicesToShow, len]
  · intro hview _ hnone
    have hfl : (applyFilter lower m).filteredList = [] := by
      rw [applyFilter_roster lower m hview hneedle]
      exact appendMatches_none _ _ hnone 0
    have he := applyFilter_empty lower { m with filterText := "" } rfl
    refine ⟨hfl, ?_, ?_, ?_, ?_⟩
    · simp [currentListLength, hfl, hv, hr, hview, len]
    · simp [getRosterIndicesToShow, hfl, hr, len]
    · rw [he]; simp [currentListLength, hview, len]
    · rw [he]; simp [getRosterIndicesToShow, len]

/-- Witness of the amended claim C10: three teams, resp. a roster of two entries,
and the needle "zz". -/
theorem no_match_shows_full_list_witness :
    ((applyFilter asciiLower
        { NewModel with teams := [teamLAD, teamNYY, teamBOS], filterText := "zz" }).filteredList
        = [] ∧
      currentListLength (applyFilter asciiLower
        { NewModel with teams := [teamLAD, teamNYY, teamBOS], filterText := "zz" }) = 3 ∧
      getTeamIndicesToShow (applyFilter asciiLower
        { NewModel with teams := [teamLAD, teamNYY, teamBOS], filterText := "zz" })
        = [0, 1, 2]) ∧
    (currentListLength (applyFilter asciiLower
        { NewModel with currentView := .ViewRoster, roster := [entryBetts, entryOhtani],
                        filterText := "zz" }) = 2 ∧
      getRosterIndicesToShow (applyFilter asciiLower
        { NewModel with currentView := .ViewRoster, roster := [entryBetts, entryOhtani],
                        filterText := "zz" }) = [0, 1]) :=
  have h := (no_match_shows_full_list asciiLower
    { NewModel with teams := [teamLAD, teamNYY, teamBOS], filterText := "zz" }
    (by decide)).1 rfl (by decide) (by decide)
  have g := (no_match_shows_full_list asciiLower
    { NewModel with currentView := .ViewRoster, roster := [entryBetts, entryOhtani],
                    filterText := "zz" }
    (by decide)).2 rfl (by decide) (by decide)
  ⟨⟨h.1, h.2.1, h.2.2.1⟩, ⟨g.2.1, g.2.2.1⟩⟩

/-- The prefix test `startsWith` decides the prefix relation. -/
theorem startsWith_iff (p s : List Char) : startsWith p s = true ↔ p <+: s := by
  induction p generalizing s with
  | nil => simp [startsWith]
  | cons a p ih =>
    cases s with
    | nil => simp [startsWith]
    | cons b s =>
      simp only [startsWith, Bool.and_eq_true, beq_iff_eq, ih, List.cons_prefix_cons]

/-- The test `containsChars` decides the contiguous-block (substring) relation. -/
theorem containsChars_iff (s sub : List Char) : containsChars s sub = true ↔ sub <:+: s := by
  induction s with
  | nil =>
    simp only [containsChars, startsWith_iff, List.prefix_nil, List.infix_nil]
  | cons c s ih =>
    simp only [containsChars, Bool.or_eq_true, startsWith_iff, ih, List.infix_cons_iff]

/-- The test `Contains` decides the substring relation on the characters. -/
theorem Contains_iff (s substr : String) :
    Contains s substr = true ↔ substr.data <:+: s.data := by
  unfold Contains
  exact containsChars_iff s.data substr.data

/-- Membership in the result of the matching loop started at index `i`. -/
theorem mem_appendMatches {α : Type} (p : α → Bool) (xs : List α) :
    ∀ (i j : Int), j ∈ appendMatches p xs i [] ↔
      ∃ k : Nat, ∃ x : α, xs.get? k = some x ∧ p x = true ∧ j = i + (k : Int) := by
  induction xs with
  | nil => intro i j; simp [appendMatches]
  | cons y ys ih =>
    intro i j
    simp only [appendMatches, List.nil_append]
    have htail : j ∈ appendMatches p ys (i + 1) [] ↔
        ∃ k : Nat, ∃ x : α, (y :: ys).get? (k + 1) = some x ∧ p x = true ∧
          j = i + ((k + 1 : Nat) : Int) := by
      rw [ih (i + 1) j]
      constructor
      · rintro ⟨k, x, hk, hp, hj⟩
        exact ⟨k, x, by simpa using hk, hp, by rw [hj]; push_cast; omega⟩
      · rintro ⟨k, x, hk, hp, hj⟩
        exact ⟨k, x, by simpa using hk, hp, by rw [hj]; push_cast; omega⟩
    by_cases hp : p y = true
    · simp only [hp, if_true]
      rw [appendMatches_eq, List.mem_append, List.mem_singleton, htail]
      constructor
      · rintro (rfl | ⟨k, x, hk, hpx, hj⟩)
        · exact ⟨0, y, rfl, hp, by simp⟩
        · exact ⟨k + 1, x, hk, hpx, hj⟩
      · rintro ⟨k, x, hk, hpx, hj⟩
        cases k with
        | zero => left; simpa using hj
        | succ k => right; exact ⟨k, x, hk, hpx, hj⟩
    · simp only [hp, if_false, Bool.false_eq_true]
      rw [htail]
      constructor
      · rintro ⟨k, x, hk, hpx, hj⟩
        exact ⟨k + 1, x, hk, hpx, hj⟩
      · rintro ⟨k, x, hk, hpx, hj⟩
        cases k with
        | zero =>
          simp only [List.get?_cons_zero, Option.some.injEq] at hk
          subst hk
          exact absurd hpx hp
        | succ k => exact ⟨k, x, hk, hpx, hj⟩

/-- Membership in the result of the matching loop started at index 0, in terms of the
index expression. -/
theorem mem_appendMatches_zero {α : Type} (p : α → Bool) (xs : List α) (j : Int) :
    j ∈ appendMatches p xs 0 [] ↔ ∃ x : α, index xs j = some x ∧ p x = true := by
  rw [mem_appendMatches]
  constructor
  · rintro ⟨k, x, hk, hp, hj⟩
    refine ⟨x, ?_, hp⟩
    unfold index
    rw [if_neg (by omega)]
    have hjk : j.toNat = k := by omega
    rw [hjk]
    exact hk
  · rintro ⟨x, hx, hp⟩
    unfold index at hx
    split_ifs at hx with hneg
    exact ⟨j.toNat, x, hx, hp, by omega⟩

/-- The matching loop collects its indices in strictly increasing order. -/
theorem pairwise_appendMatches {α : Type} (p : α → Bool) (xs : List α) :
    ∀ i : Int, (appendMatches p xs i []).Pairwise (fun a b => a < b) := by
  induction xs with
  | nil => intro i; simp [appendMatches]
  | cons y ys ih =>
    intro i
    simp only [appendMatches, List.nil_append]
    by_cases hp : p y = true
    · simp only [hp, if_true]
      rw [appendMatches_eq, List.singleton_append, List.pairwise_cons]
      refine ⟨?_, ih (i + 1)⟩
      intro b hb
      obtain ⟨k, _, _, _, hj⟩ := (mem_appendMatches p ys (i + 1) b).mp hb
      omega
    · simp only [hp, if_false, Bool.false_eq_true]
      exact ih (i + 1)

/-- The matching loop depends on the items only through the values of its condition. -/
theorem appendMatches_congr {α β : Type} (p : α → Bool) (q : β → Bool) (xs : List α) :
    ∀ (ys : List β) (i : Int) (acc : List Int), xs.map p = ys.map q →
      appendMatches p xs i acc = appendMatches q ys i acc := by
  induction xs with
  | nil =>
    intro ys i acc h
    cases ys with
    | nil => rfl
    | cons y ys => simp at h
  | cons x xs ih =>
    intro ys i acc h
    cases ys with
    | nil => simp at h
    | cons y ys =>
      simp only [List.map_cons, List.cons.injEq] at h
      simp only [appendMatches, h.1]
      exact ih ys (i + 1) _ h.2


/-- The condition of the Teams loop, as a substring statement. -/
theorem teamMatches_iff (lower : String → String) (filter : String) (t : Team) :
    teamMatches lower filter t = true ↔
      (filter.data <:+: (lower t.Name).data ∨
        filter.data <:+: (lower t.Abbreviation).data) := by
  unfold teamMatches
  rw [Bool.or_eq_true, Contains_iff, Contains_iff]

/-- The condition of the Roster loop, as a substring statement. -/
theorem rosterMatches_iff (lower : String → String) (filter : String) (r : RosterEntry) :
    rosterMatches lower filter r = true ↔
      (filter.data <:+: (lower r.Person.FullName).data ∨
        filter.data <:+: (lower r.Position.Abbreviation).data) := by
  unfold rosterMatches
  rw [Bool.or_eq_true, Contains_iff, Contains_iff]

/-- In a view without a list `applyFilter` leaves no matching indices. -/
theorem applyFilter_other (lower : String → String) (m : Model)
    (ht : m.currentView ≠ .ViewTeams) (hr : m.currentView ≠ .ViewRoster) :
    (applyFilter lower m).filteredList = [] := by
  unfold applyFilter
  rw [apply_ite Model.filteredList]
  split_ifs with h
  · rfl
  · cases hv : m.currentView <;> simp_all <;> split_ifs <;> rfl

/-- Claim C11: with a non-empty filter text, `applyFilter` in the Teams view leaves as
matching indices the strictly increasing sequence of exactly the indices `i` for which
the lower-cased filter text is a substring of the lower-cased name or of the
lower-cased abbreviation of `teams[i]`; in the Roster view the same with the full name
and the position abbreviation of `roster[i]`.  Hence two states in the same view whose
filter texts and whose fields lower-case to the same strings get the same matching
indices. -/
theorem applyFilter_matching_indices (lower : String → String) (m : Model)
    (hneedle : m.filterText ≠ "") :
    (m.currentView = .ViewTeams →
      (applyFilter lower m).filteredList.Pairwise (fun a b => a < b) ∧
      ∀ i : Int, i ∈ (applyFilter lower m).filteredList ↔
        ∃ t : Team, index m.teams i = some t ∧
          ((lower m.filterText).data <:+: (lower t.Name).data ∨
            (lower m.filterText).data <:+: (lower t.Abbreviation).data)) ∧
    (m.currentView = .ViewRoster →
      (applyFilter lower m).filteredList.Pairwise (fun a b => a < b) ∧
      ∀ i : Int, i ∈ (applyFilter lower m).filteredList ↔
        ∃ r : RosterEntry, index m.roster i = some r ∧
          ((lower m.filterText).data <:+: (lower r.Person.FullName).data ∨
            (lower m.filterText).data <:+: (lower r.Position.Abbreviation).data)) ∧
    (∀ m2 : Model, m2.filterText ≠ "" → m2.currentView = m.currentView →
      lower m2.filterText = lower m.filterText →
      m2.teams.map (fun t => (lower t.Name, lower t.Abbreviation))
        = m.teams.map (fun t => (lower t.Name, lower t.Abbreviation)) →
      m2.roster.map (fun r => (lower r.Person.FullName, lower r.Position.Abbreviation))
        = m.roster.map (fun r => (lower r.Person.FullName, lower r.Position.Abbreviation)) →
      (applyFilter lower m2).filteredList = (applyFilter lower m).filteredList) := by
  refine ⟨?_, ?_, ?_⟩
  · intro hview
    rw [applyFilter_teams lower m hview hneedle]
    refine ⟨pairwise_appendMatches _ _ 0, fun i => ?_⟩
    rw [mem_appendMatches_zero]
    simp only [teamMatches_iff]
  · intro hview
    rw [applyFilter_roster lower m hview hneedle]
    refine ⟨pairwise_appendMatches _ _ 0, fun i => ?_⟩
    rw [mem_appendMatches_zero]
    simp only [rosterMatches_iff]
  · intro m2 hneedle2 hview2 hlow hteams hroster
    by_cases ht : m.currentView = .ViewTeams
    · rw [applyFilter_teams lower m ht hneedle,
        applyFilter_teams lower m2 (hview2.trans ht) hneedle2, hlow]
      apply appendMatches_congr
      have h := congrArg (List.map (fun ab : String × String =>
        Contains ab.1 (lower m.filterText) || Contains ab.2 (lower m.filterText))) hteams
      simpa [List.map_map, Function.comp, teamMatches] using h
    · by_cases hr : m.currentView = .ViewRoster
      · rw [applyFilter_roster lower m hr hneedle,
          applyFilter_roster lower m2 (hview2.trans hr) hneedle2, hlow]
        apply appendMatches_congr
        have h := congrArg (List.map (fun ab : String × String =>
          Contains ab.1 (lower m.filterText) || Contains ab.2 (lower m.filterText))) hroster
        simpa [List.map_map, Function.comp, rosterMatches] using h
      · rw [applyFilter_other lower m ht hr,
          applyFilter_other lower m2 (hview2 ▸ ht) (hview2 ▸ hr)]

/-- Witness of claim C11: three teams filtered by "NY" and by "ny", and a roster of
two entries filtered by "ss". -/
theorem applyFilter_matching_indices_witness :
    ((applyFilter asciiLower
        { NewModel with teams := [teamLAD, teamNYY, teamBOS], filterText := "NY" }).filteredList.Pairwise
        (fun a b => a < b) ∧
      ((1 : Int) ∈ (applyFilter asciiLower
          { NewModel with teams := [teamLAD, teamNYY, teamBOS], filterText := "NY" }).filteredList ↔
        ∃ t : Team, index [teamLAD, teamNYY, teamBOS] 1 = some t ∧
          ((asciiLower "NY").data <:+: (asciiLower t.Name).data ∨
            (asciiLower "NY").data <:+: (asciiLower t.Abbreviation).data))) ∧
    ((0 : Int) ∈ (applyFilter asciiLower
          { NewModel with currentView := .ViewRoster, roster := [entryBetts, entryOhtani],
                          filterText := "ss" }).filteredList ↔
        ∃ r : RosterEntry, index [entryBetts, entryOhtani] 0 = some r ∧
          ((asciiLower "ss").data <:+: (asciiLower r.Person.FullName).data ∨
            (asciiLower "ss").data <:+: (asciiLower r.Position.Abbreviation).data)) ∧
    (applyFilter asciiLower
        { NewModel with teams := [teamLAD, teamNYY, teamBOS], filterText := "ny" }).filteredList
      = (applyFilter asciiLower
        { NewModel with teams := [teamLAD, teamNYY, teamBOS], filterText := "NY" }).filteredList :=
  have h := applyFilter_matching_indices asciiLower
    { NewModel with teams := [teamLAD, teamNYY, teamBOS], filterText := "NY" } (by decide)
  have g := applyFilter_matching_indices asciiLower
    { NewModel with currentView := .ViewRoster, roster := [entryBetts, entryOhtani],
                    filterText := "ss" } (by decide)
  ⟨⟨(h.1 rfl).1, (h.1 rfl).2 1⟩, (g.2.1 rfl).2 0,
    h.2.2 { NewModel with teams := [teamLAD, teamNYY, teamBOS], filterText := "ny" }
      (by decide) rfl (by decide) rfl rfl⟩


/-- Claim C12: in the Teams view with a non-empty team list and an actual index `idx`
with `0 ≤ idx < len teams`, Select returns the state with selected team `teams[idx]`,
the history extended by Teams, view Roster, cursor 0, empty filter text, no matching
indices and `loading = true`, together with the roster load request keyed by the
decimal rendering of the ID of `teams[idx]`. -/
theorem handleSelect_teams_effect (m : Model) (idx : Int)
    (hview : m.currentView = .ViewTeams) (hne : 0 < len m.teams)
    (hidx : getActualIndex m = some idx) (h0 : 0 ≤ idx) (hlt : idx < len m.teams) :
    ∃ t : Team, ∃ m1 : Model, index m.teams idx = some t ∧
      handleSelect m = some (m1, [Cmd.spinnerTick, Cmd.loadRoster (sprintfD t.ID)]) ∧
      m1.selectedTeam = some t ∧ m1.history = m.history ++ [.ViewTeams] ∧
      m1.currentView = .ViewRoster ∧ m1.cursor = 0 ∧ m1.filterText = "" ∧
      m1.filteredList = [] ∧ m1.loading = true := by
  obtain ⟨t, ht⟩ := index_of_lt m.teams idx h0 hlt
  exact ⟨t, _, ht, handleSelect_teams m idx t hview hne hidx hlt ht,
    rfl, rfl, rfl, rfl, rfl, rfl, rfl⟩

/-- Witness of claim C12: three teams filtered down to the second and third, cursor on
the second row, which is the third team. -/
theorem handleSelect_teams_effect_witness :
    ∃ t : Team, ∃ m1 : Model, index [teamLAD, teamNYY, teamBOS] 2 = some t ∧
      handleSelect { NewModel with teams := [teamLAD, teamNYY, teamBOS], cursor := 1,
                                   filterText := "o", filteredList := [1, 2] }
        = some (m1, [Cmd.spinnerTick, Cmd.loadRoster (sprintfD t.ID)]) ∧
      m1.selectedTeam = some t ∧ m1.history = [] ++ [.ViewTeams] ∧
      m1.currentView = .ViewRoster ∧ m1.cursor = 0 ∧ m1.filterText = "" ∧
      m1.filteredList = [] ∧ m1.loading = true :=
  handleSelect_teams_effect
    { NewModel with teams := [teamLAD, teamNYY, teamBOS], cursor := 1,
                    filterText := "o", filteredList := [1, 2] }
    2 rfl (by decide) rfl (by decide) (by decide)

/-- Claim C13: in the Roster view with a non-empty roster and an actual index `idx`
with `0 ≤ idx < len roster`, Select returns the state with selected entry
`roster[idx]`, no cached player statistics, the history extended by Roster, view
Player, cursor 0 and `loading = true`, together with the player-statistics load
request keyed by the decimal rendering of the person ID of `roster[idx]`; and in the
Player, Standings and Schedule views Select returns the state unchanged with no
command. -/
theorem handleSelect_roster_effect (m : Model) :
    (∀ idx : Int, m.currentView = .ViewRoster → 0 < len m.roster →
      getActualIndex m = some idx → 0 ≤ idx → idx < len m.roster →
      ∃ r : RosterEntry, ∃ m1 : Model, index m.roster idx = some r ∧
        handleSelect m
          = some (m1, [Cmd.spinnerTick, Cmd.loadPlayerStats (sprintfD r.Person.ID)]) ∧
        m1.selectedPlayer = some r ∧ m1.playerStats = none ∧
        m1.history = m.history ++ [.ViewRoster] ∧ m1.currentView = .ViewPlayer ∧
        m1.cursor = 0 ∧ m1.loading = true) ∧
    (m.currentView = .ViewPlayer ∨ m.currentView = .ViewStandings ∨
        m.currentView = .ViewSchedule → handleSelect m = some (m, [])) := by
  constructor
  · intro idx hview hne hidx h0 hlt
    obtain ⟨r, hr⟩ := index_of_lt m.roster idx h0 hlt
    exact ⟨r, _, hr, handleSelect_roster m idx r hview hne hidx hlt hr,
      rfl, rfl, rfl, rfl, rfl, rfl⟩
  · intro hview
    unfold handleSelect
    rcases hview with h | h | h <;> simp only [h]

/-- Witness of claim C13: a roster of two entries with the cursor on the second, and
the same state moved to the Standings view. -/
theorem handleSelect_roster_effect_witness :
    (∃ r : RosterEntry, ∃ m1 : Model, index [entryBetts, entryOhtani] 1 = some r ∧
      handleSelect { NewModel with currentView := .ViewRoster,
                                   roster := [entryBetts, entryOhtani], cursor := 1,
                                   playerStats := some statsBetts }
        = some (m1, [Cmd.spinnerTick, Cmd.loadPlayerStats (sprintfD r.Person.ID)]) ∧
      m1.selectedPlayer = some r ∧ m1.playerStats = none ∧
      m1.history = [] ++ [.ViewRoster] ∧ m1.currentView = .ViewPlayer ∧
      m1.cursor = 0 ∧ m1.loading = true) ∧
    handleSelect { NewModel with currentView := .ViewStandings,
                                 roster := [entryBetts, entryOhtani], cursor := 1 }
      = some ({ NewModel with currentView := .ViewStandings,
                              roster := [entryBetts, entryOhtani], cursor := 1 }, []) :=
  ⟨(handleSelect_roster_effect
      { NewModel with currentView := .ViewRoster, roster := [entryBetts, entryOhtani],
                      cursor := 1, playerStats := some statsBetts }).1
      1 rfl (by decide) rfl (by decide) (by decide),
    (handleSelect_roster_effect
      { NewModel with currentView := .ViewStandings, roster := [entryBetts, entryOhtani],
                      cursor := 1 }).2 (Or.inr (Or.inl rfl))⟩

/-- Claim C14: with a non-empty history Back makes the last element of the history the
current view, removes it, sets the cursor to 0 and clears the filter text and the
matching indices; with an empty history Back returns the state unchanged; in both
cases the selected team, the selected roster entry and the five cached payloads are
unchanged and no command is issued. -/
theorem handleBack_effect (m : Model) :
    (m.history ≠ [] →
      some (handleBack m).1.currentView = m.history.getLast? ∧
      (handleBack m).1.history = m.history.dropLast ∧ (handleBack m).1.cursor = 0 ∧
      (handleBack m).1.filterText = "" ∧ (handleBack m).1.filteredList = []) ∧
    (m.history = [] → handleBack m = (m, [])) ∧
    (handleBack m).1.selectedTeam = m.selectedTeam ∧
    (handleBack m).1.selectedPlayer = m.selectedPlayer ∧
    payloads (handleBack m).1 = payloads m ∧ (handleBack m).2 = [] := by
  unfold handleBack
  cases hlast : m.history.getLast? with
  | none =>
    have hnil : m.history = [] := List.getLast?_eq_none_iff.mp hlast
    exact ⟨fun h => absurd hnil h, fun _ => rfl, rfl, rfl, rfl, rfl⟩
  | some v =>
    refine ⟨fun _ => ⟨rfl, rfl, rfl, rfl, rfl⟩, fun h => ?_, rfl, rfl, rfl, rfl⟩
    rw [h] at hlast
    simp at hlast

/-- Witness of claim C14: the Player view reached through Teams and Roster, and the
initial model with its empty history. -/
theorem handleBack_effect_witness :
    (some (handleBack { NewModel with currentView := .ViewPlayer,
                                      history := [.ViewTeams, .ViewRoster],
                                      cursor := 3 }).1.currentView
        = some View.ViewRoster ∧
      (handleBack { NewModel with currentView := .ViewPlayer,
                                  history := [.ViewTeams, .ViewRoster],
                                  cursor := 3 }).1.history = [.ViewTeams] ∧
      (handleBack { NewModel with currentView := .ViewPlayer,
                                  history := [.ViewTeams, .ViewRoster],
                                  cursor := 3 }).1.cursor = 0) ∧
    handleBack NewModel = (NewModel, []) :=
  have h := (handleBack_effect { NewModel with currentView := .ViewPlayer,
                                               history := [.ViewTeams, .ViewRoster],
                                               cursor := 3 }).1 (by decide)
  ⟨⟨h.1, h.2.1, h.2.2.1⟩, (handleBack_effect NewModel).2.1 rfl⟩


/-- What `switchToTab` does about loading: with an empty payload slot of the tab it
sets `loading` and issues the load request of the tab, otherwise it keeps `loading`
and issues nothing. -/
theorem switchToTab_fetch (m : Model) :
    (tabSlotEmpty m m.currentTab = true →
      (switchToTab m).1.loading = true ∧
        (switchToTab m).2 = [Cmd.spinnerTick, tabFetch m.currentTab]) ∧
    (tabSlotEmpty m m.currentTab = false →
      (switchToTab m).1.loading = m.loading ∧ (switchToTab m).2 = []) := by
  cases hm : m.currentTab <;>
    simp only [switchToTab, resetFilter, hm, tabSlotEmpty, tabFetch, decide_eq_true_eq,
      decide_eq_false_iff_not] <;>
    (constructor <;> intro h <;> simp [h])

/-- Claim C15, refuted as stated: after the team load has completed successfully with
an empty list (and the standings and the schedule have been loaded, each with an empty
payload), the Tab key brings the Teams tab back, sets `loading` and issues the team
list request again. -/
theorem tab_switch_refetches_empty_teams :
    ∃ m m1 : Model, run asciiLower NewModel emptyLoadsTrace = some m ∧
      m.currentTab = .TabSchedule ∧ m.loading = false ∧
      Update asciiLower m keyTab = some (m1, [Cmd.spinnerTick, Cmd.loadTeams]) ∧
      m1.currentTab = .TabTeams ∧ m1.loading = true ∧
      ¬ (m1.loading = m.loading ∧
          Update asciiLower m keyTab = some (m1, [])) := by
  refine ⟨_, _, rfl, rfl, rfl, rfl, rfl, rfl, ?_⟩
  decide

/-- Claim C15, amended: a tab switch sets `loading` and issues the load request of the
new tab exactly when the payload slot of that tab is empty, which for Standings and
Schedule means no payload pointer and for Teams a team list of length 0; otherwise it
issues nothing and keeps `loading`.  After a successful load completion the Standings
and Schedule slots are non-empty whatever the payload holds, while the Teams slot is
empty exactly when the loaded list is. -/
theorem tab_switch_fetches_iff_slot_empty (lower : String → String) (m : Model) :
    ((tabSlotEmpty m (nextTab m).1.currentTab = true →
        (nextTab m).1.loading = true ∧
          (nextTab m).2 = [Cmd.spinnerTick, tabFetch (nextTab m).1.currentTab]) ∧
      (tabSlotEmpty m (nextTab m).1.currentTab = false →
        (nextTab m).1.loading = m.loading ∧ (nextTab m).2 = [])) ∧
    ((tabSlotEmpty m (prevTab m).1.currentTab = true →
        (prevTab m).1.loading = true ∧
          (prevTab m).2 = [Cmd.spinnerTick, tabFetch (prevTab m).1.currentTab]) ∧
      (tabSlotEmpty m (prevTab m).1.currentTab = false →
        (prevTab m).1.loading = m.loading ∧ (prevTab m).2 = [])) ∧
    (∀ s : StandingsResponse, ∃ m1 : Model,
      Update lower m (.standingsLoadedMsg (some s) none) = some (m1, []) ∧
        tabSlotEmpty m1 .TabStandings = false) ∧
    (∀ s : ScheduleResponse, ∃ m1 : Model,
      Update lower m (.scheduleLoadedMsg (some s) none) = some (m1, []) ∧
        tabSlotEmpty m1 .TabSchedule = false) ∧
    (∀ ts : List Team, ∃ m1 : Model,
      Update lower m (.teamsLoadedMsg ts none) = some (m1, []) ∧
        (tabSlotEmpty m1 .TabTeams = true ↔ ts = [])) := by
  have hn := switchToTab_fetch
    { m with currentTab := Tab.ofInt ((m.currentTab.toInt + 1).tmod 3) }
  have hp := switchToTab_fetch
    { m with currentTab := Tab.ofInt ((m.currentTab.toInt + 2).tmod 3) }
  have hnt := (switchToTab_resets
    { m with currentTab := Tab.ofInt ((m.currentTab.toInt + 1).tmod 3) }).1
  have hpt := (switchToTab_resets
    { m with currentTab := Tab.ofInt ((m.currentTab.toInt + 2).tmod 3) }).1
  refine ⟨?_, ?_, ?_, ?_, ?_⟩
  · unfold nextTab
    rw [hnt]
    exact hn
  · unfold prevTab
    rw [hpt]
    exact hp
  · intro s
    exact ⟨_, rfl, by simp [tabSlotEmpty]⟩
  · intro s
    exact ⟨_, rfl, by simp [tabSlotEmpty]⟩
  · intro ts
    refine ⟨_, rfl, ?_⟩
    simp [tabSlotEmpty, resetFilter, len]

/-- Witness of the amended claim C15: from the initial model, whose team list and
standings are not loaded, the next tab is fetched; once three teams are loaded,
coming back to the Teams tab fetches nothing. -/
theorem tab_switch_fetches_iff_slot_empty_witness :
    ((nextTab NewModel).1.loading = true ∧
      (nextTab NewModel).2 = [Cmd.spinnerTick, Cmd.loadStandings]) ∧
    ((prevTab { NewModel with currentTab := .TabStandings, loading := false,
                              teams := [teamLAD, teamNYY, teamBOS] }).1.loading = false ∧
      (prevTab { NewModel with currentTab := .TabStandings, loading := false,
                               teams := [teamLAD, teamNYY, teamBOS] }).2 = []) :=
  ⟨(tab_switch_fetches_iff_slot_empty asciiLower NewModel).1.1 rfl,
    (tab_switch_fetches_iff_slot_empty asciiLower
      { NewModel with currentTab := .TabStandings, loading := false,
                      teams := [teamLAD, teamNYY, teamBOS] }).2.1.2 rfl⟩

/-- Claim C16: in the Teams, Standings or Schedule view, in the Roster view with a
selected team and in the Player view with a selected roster entry, Refresh returns the
state with `loading = true` and an empty error slot, every other field as before, and
issues the load request of the view: team list, roster keyed by the ID of the selected
team, player statistics keyed by the person ID of the selected entry, standings,
schedule. -/
theorem refresh_effect (m : Model) :
    (m.currentView = .ViewTeams →
      refresh m = ({ m with loading := true, err := none },
        [Cmd.spinnerTick, Cmd.loadTeams])) ∧
    (m.currentView = .ViewStandings →
      refresh m = ({ m with loading := true, err := none },
        [Cmd.spinnerTick, Cmd.loadStandings])) ∧
    (m.currentView = .ViewSchedule →
      refresh m = ({ m with loading := true, err := none },
        [Cmd.spinnerTick, Cmd.loadSchedule])) ∧
    (∀ t : Team, m.currentView = .ViewRoster → m.selectedTeam = some t →
      refresh m = ({ m with loading := true, err := none },
        [Cmd.spinnerTick, Cmd.loadRoster (sprintfD t.ID)])) ∧
    (∀ r : RosterEntry, m.currentView = .ViewPlayer → m.selectedPlayer = some r →
      refresh m = ({ m with loading := true, err := none },
        [Cmd.spinnerTick, Cmd.loadPlayerStats (sprintfD r.Person.ID)])) := by
  refine ⟨?_, ?_, ?_, ?_, ?_⟩
  · intro h; simp only [refresh, h]
  · intro h; simp only [refresh, h]
  · intro h; simp only [refresh, h]
  · intro t h ht; simp only [refresh, h, ht]
  · intro r h hr; simp only [refresh, h, hr]

/-- Witness of claim C16: the Roster view of the New York Yankees after a failed load,
and the initial model in the Teams view. -/
theorem refresh_effect_witness :
    refresh { NewModel with currentView := .ViewRoster, selectedTeam := some teamNYY,
                            loading := false, err := some "request failed" }
      = ({ NewModel with currentView := .ViewRoster, selectedTeam := some teamNYY,
                         loading := true, err := none },
        [Cmd.spinnerTick, Cmd.loadRoster "147"]) ∧
    refresh NewModel = (NewModel, [Cmd.spinnerTick, Cmd.loadTeams]) :=
  ⟨(refresh_effect
      { NewModel with currentView := .ViewRoster, selectedTeam := some teamNYY,
                      loading := false, err := some "request failed" }).2.2.2.1
      teamNYY rfl rfl,
    (refresh_effect NewModel).1 rfl⟩

/-- Claim C17, refuted as stated: the Roster view without a selected team (and the
Player view without a selected roster entry), not loading and holding the error
"request failed", is not returned unchanged by `refresh`; the state comes back with
`loading = true` and an empty error slot, and no command is issued. -/
theorem refresh_absent_selection_counterexample :
    refresh { NewModel with currentView := .ViewRoster, selectedTeam := none,
                            loading := false, err := some "request failed" }
      = ({ NewModel with currentView := .ViewRoster, selectedTeam := none,
                         loading := true, err := none }, []) ∧
    refresh { NewModel with currentView := .ViewRoster, selectedTeam := none,
                            loading := false, err := some "request failed" }
      ≠ ({ NewModel with currentView := .ViewRoster, selectedTeam := none,
                         loading := false, err := some "request failed" }, []) ∧
    refresh { NewModel with currentView := .ViewPlayer, selectedPlayer := none,
                            loading := false, err := some "request failed" }
      = ({ NewModel with currentView := .ViewPlayer, selectedPlayer := none,
                         loading := true, err := none }, []) ∧
    refresh { NewModel with currentView := .ViewPlayer, selectedPlayer := none,
                            loading := false, err := some "request failed" }
      ≠ ({ NewModel with currentView := .ViewPlayer, selectedPlayer := none,
                         loading := false, err := some "request failed" }, []) := by
  refine ⟨rfl, by decide, rfl, by decide⟩

/-- Claim C17, amended: for every state, reachable or not, whose view is Roster with no
selected team, or Player with no selected roster entry, `refresh` issues no load
request and returns the state with `loading = true` and an empty error slot, every
other field as before. -/
theorem refresh_absent_selection (m : Model) :
    (m.currentView = .ViewRoster → m.selectedTeam = none →
      refresh m = ({ m with loading := true, err := none }, [])) ∧
    (m.currentView = .ViewPlayer → m.selectedPlayer = none →
      refresh m = ({ m with loading := true, err := none }, [])) := by
  refine ⟨?_, ?_⟩
  · intro h ht; simp only [refresh, h, ht]
  · intro h hp; simp only [refresh, h, hp]

/-- Witness of the amended claim C17: the Roster view without a selected team after a
failed load, and the Player view without a selected roster entry. -/
theorem refresh_absent_selection_witness :
    refresh { NewModel with currentView := .ViewRoster, selectedTeam := none,
                            loading := false, err := some "request failed",
                            teams := [teamLAD, teamNYY, teamBOS], cursor := 1 }
      = ({ NewModel with currentView := .ViewRoster, selectedTeam := none,
                         loading := true, err := none,
                         teams := [teamLAD, teamNYY, teamBOS], cursor := 1 }, []) ∧
    refresh { NewModel with currentView := .ViewPlayer, selectedTeam := some teamNYY,
                            selectedPlayer := none, loading := false }
      = ({ NewModel with currentView := .ViewPlayer, selectedTeam := some teamNYY,
                         selectedPlayer := none, loading := true, err := none }, []) :=
  ⟨(refresh_absent_selection
      { NewModel with currentView := .ViewRoster, selectedTeam := none,
                      loading := false, err := some "request failed",
                      teams := [teamLAD, teamNYY, teamBOS], cursor := 1 }).1 rfl rfl,
    (refresh_absent_selection
      { NewModel with currentView := .ViewPlayer, selectedTeam := some teamNYY,
                      selectedPlayer := none, loading := false }).2 rfl rfl⟩


/-- The cursor after `applyFilter`: 0 when the new matching indices are non-empty and
the cursor is at or past their count, else unchanged. -/
theorem applyFilter_cursor (lower : String → String) (m : Model) :
    (applyFilter lower m).cursor =
      if len (applyFilter lower m).filteredList ≤ m.cursor ∧
          0 < len (applyFilter lower m).filteredList then 0
      else m.cursor := by
  unfold applyFilter
  by_cases h : m.filterText = ""
  · simp [h, len]
  · simp only [if_neg h]
    cases hv : m.currentView <;> simp only [] <;> split_ifs <;> simp_all

/-- Fields `applyFilter` never writes: the filter mode and the filter text. -/
theorem applyFilter_frame_filter (lower : String → String) (m : Model) :
    (applyFilter lower m).filterMode = m.filterMode ∧
      (applyFilter lower m).filterText = m.filterText := by
  unfold applyFilter
  split_ifs with h
  · exact ⟨rfl, rfl⟩
  · cases hv : m.currentView <;> simp only [hv] <;> split_ifs <;> exact ⟨rfl, rfl⟩

/-- Claim C18, refuted as stated: in filter mode on three loaded teams with the cursor
on the second row, typing "o" changes the matching indices from none to `[0, 1, 2]`
and typing "s" after it changes them to `[0, 2]`; both times the cursor stays at 1. -/
theorem filter_typing_keeps_cursor_counterexample :
    ∃ m0 m1 m2 : Model, run asciiLower NewModel filterModeTrace = some m0 ∧
      m0.filterMode = true ∧ m0.currentView = .ViewTeams ∧ m0.filteredList = [] ∧
      m0.cursor = 1 ∧
      Update asciiLower m0 (.KeyMsg ⟨.KeyOther, "o"⟩ "o") = some (m1, [Cmd.textInputCmd]) ∧
      m1.filteredList = [0, 1, 2] ∧ m1.cursor = 1 ∧
      Update asciiLower m1 (.KeyMsg ⟨.KeyOther, "s"⟩ "os") = some (m2, [Cmd.textInputCmd]) ∧
      m2.filteredList = [0, 2] ∧ m2.cursor = 1 ∧ m2.cursor ≠ 0 := by
  refine ⟨_, _, _, rfl, rfl, rfl, rfl, rfl, rfl, ?_, ?_, rfl, ?_, ?_, ?_⟩ <;> decide

/-- Claim C18, amended: in filter mode a key other than Enter and Escape stores the
edited text as filter text, recomputes the matching indices, and sets the cursor to 0
exactly when the new matching indices are non-empty and the cursor is at or past their
count; otherwise the cursor is unchanged. -/
theorem filter_typing_cursor (lower : String → String) (m : Model) (k : KeyMsg)
    (edited : String) (hmode : m.filterMode = true) (hk : k.keyType = .KeyOther) :
    ∃ m1 : Model, Update lower m (.KeyMsg k edited) = some (m1, [Cmd.textInputCmd]) ∧
      m1.filterText = edited ∧
      m1.filteredList = (applyFilter lower { m with filterText := edited }).filteredList ∧
      m1.cursor =
        if len m1.filteredList ≤ m.cursor ∧ 0 < len m1.filteredList then 0
        else m.cursor := by
  let ma : Model := { m with
    textInput := { m.textInput with value := edited }, filterText := edited }
  let mb : Model := { m with filterText := edited }
  have hlist : (applyFilter lower ma).filteredList = (applyFilter lower mb).filteredList := by
    by_cases he : edited = ""
    · rw [applyFilter_empty lower ma he, applyFilter_empty lower mb he]
    · by_cases ht : m.currentView = .ViewTeams
      · rw [applyFilter_teams lower ma ht he, applyFilter_teams lower mb ht he]
      · by_cases hr : m.currentView = .ViewRoster
        · rw [applyFilter_roster lower ma hr he, applyFilter_roster lower mb hr he]
        · rw [applyFilter_other lower ma ht hr, applyFilter_other lower mb ht hr]
  refine ⟨applyFilter lower ma, ?_, (applyFilter_frame_filter lower ma).2, hlist,
    applyFilter_cursor lower ma⟩
  simp [Update, handleFilterInput, hmode, hk, ma]

/-- Witness of the amended claim C18: three teams in filter mode with the cursor on
the third row, and the key that makes the text "os", which matches two teams. -/
theorem filter_typing_cursor_witness :
    ∃ m1 : Model,
      Update asciiLower
          { NewModel with teams := [teamLAD, teamNYY, teamBOS], cursor := 2,
                          filterMode := true, filterText := "o",
                          filteredList := [0, 1, 2] }
          (.KeyMsg ⟨.KeyOther, "s"⟩ "os") = some (m1, [Cmd.textInputCmd]) ∧
      m1.filterText = "os" ∧
      m1.filteredList = (applyFilter asciiLower
          { NewModel with teams := [teamLAD, teamNYY, teamBOS], cursor := 2,
                          filterMode := true, filterText := "os",
                          filteredList := [0, 1, 2] }).filteredList ∧
      m1.cursor = if len m1.filteredList ≤ 2 ∧ 0 < len m1.filteredList then 0 else 2 :=
  filter_typing_cursor asciiLower
    { NewModel with teams := [teamLAD, teamNYY, teamBOS], cursor := 2,
                    filterMode := true, filterText := "o", filteredList := [0, 1, 2] }
    ⟨.KeyOther, "s"⟩ "os" rfl rfl


/-- Claim C19: in filter mode, Enter leaves filter mode, keeps the filter text and
leaves as matching indices the filter of the current list by that text (none for an
empty text); Escape leaves filter mode with an empty filter text and no matching
indices, so that the indices to show are all of `0, ..., n-1`, which for a list of
five items is `[0, 1, 2, 3, 4]`. -/
theorem filter_confirm_cancel (lower : String → String) (m : Model) (k : KeyMsg)
    (edited : String) (hmode : m.filterMode = true) :
    (k.keyType = .KeyEnter →
      ∃ m1 : Model, Update lower m (.KeyMsg k edited) = some (m1, []) ∧
        m1.filterMode = false ∧ m1.filterText = m.filterText ∧
        (m.filterText = "" → m1.filteredList = []) ∧
        (m.filterText ≠ "" → m.currentView = .ViewTeams →
          m1.filteredList
            = appendMatches (teamMatches lower (lower m.filterText)) m.teams 0 []) ∧
        (m.filterText ≠ "" → m.currentView = .ViewRoster →
          m1.filteredList
            = appendMatches (rosterMatches lower (lower m.filterText)) m.roster 0 [])) ∧
    (k.keyType = .KeyEscape →
      ∃ m1 : Model, Update lower m (.KeyMsg k edited) = some (m1, []) ∧
        m1.filterMode = false ∧ m1.filterText = "" ∧ m1.filteredList = [] ∧
        getTeamIndicesToShow m1 = identityIndices m.teams.length ∧
        getRosterIndicesToShow m1 = identityIndices m.roster.length ∧
        (m.teams.length = 5 → getTeamIndicesToShow m1 = [0, 1, 2, 3, 4])) := by
  constructor
  · intro hk
    let ma : Model := { m with
      filterMode := false, textInput := { m.textInput with focus := false } }
    refine ⟨applyFilter lower ma, ?_, (applyFilter_frame_filter lower ma).1,
      (applyFilter_frame_filter lower ma).2, ?_, ?_, ?_⟩
    · simp [Update, handleFilterInput, hmode, hk, ma]
    · intro he
      rw [applyFilter_empty lower ma he]
    · intro he ht
      exact applyFilter_teams lower ma ht he
    · intro he hr
      exact applyFilter_roster lower ma hr he
  · intro hk
    refine ⟨resetFilter { m with
        filterMode := false, textInput := { m.textInput with focus := false, value := "" } },
      ?_, rfl, rfl, rfl, ?_, ?_, ?_⟩
    · simp [Update, handleFilterInput, hmode, hk, resetFilter]
    · simp [getTeamIndicesToShow, resetFilter, len]
    · simp [getRosterIndicesToShow, resetFilter, len]
    · intro h5
      simp only [getTeamIndicesToShow, resetFilter, len, List.length_nil, Nat.cast_zero,
        lt_self_iff_false, if_false, h5]
      decide

/-- Witness of claim C19: three teams in filter mode with the text "os", confirmed
with Enter and cancelled with Escape. -/
theorem filter_confirm_cancel_witness :
    (∃ m1 : Model,
      Update asciiLower
          { NewModel with teams := [teamLAD, teamNYY, teamBOS], filterMode := true,
                          filterText := "os", filteredList := [0, 2] }
          (.KeyMsg ⟨.KeyEnter, "enter"⟩ "os") = some (m1, []) ∧
      m1.filterMode = false ∧ m1.filterText = "os" ∧ m1.filteredList = [0, 2]) ∧
    (∃ m1 : Model,
      Update asciiLower
          { NewModel with teams := [teamLAD, teamNYY, teamBOS], filterMode := true,
                          filterText := "os", filteredList := [0, 2] }
          (.KeyMsg ⟨.KeyEscape, "esc"⟩ "os") = some (m1, []) ∧
      m1.filterMode = false ∧ m1.filterText = "" ∧ m1.filteredList = [] ∧
      getTeamIndicesToShow m1 = [0, 1, 2]) := by
  obtain ⟨m1, h1, h2, h3, _, h5, _⟩ := (filter_confirm_cancel asciiLower
    { NewModel with teams := [teamLAD, teamNYY, teamBOS], filterMode := true,
                    filterText := "os", filteredList := [0, 2] }
    ⟨.KeyEnter, "enter"⟩ "os" rfl).1 rfl
  obtain ⟨m2, g1, g2, g3, g4, g5, _, _⟩ := (filter_confirm_cancel asciiLower
    { NewModel with teams := [teamLAD, teamNYY, teamBOS], filterMode := true,
                    filterText := "os", filteredList := [0, 2] }
    ⟨.KeyEscape, "esc"⟩ "os" rfl).2 rfl
  exact ⟨⟨m1, h1, h2, h3, (h5 (by decide) rfl).trans (by decide)⟩,
    ⟨m2, g1, g2, g3, g4, g5.trans (by decide)⟩⟩

/-- Claim C20, evaluated on the code: a successful load completion of each of the five
kinds stores its payload, leaves the other four payloads unchanged and sets
`loading = false`, but leaves the error slot as it was; after a failed roster load
followed by Back, a switch to the Standings tab and a successful standings load, the
state holds the standings, is not loading, still holds the roster error, and `View`
shows that error. -/
theorem load_success_keeps_error (lower : String → String) (m : Model)
    (teams : List Team) (roster : List RosterEntry) (stats : Option PlayerStatsResponse)
    (standings : Option StandingsResponse) (schedule : Option ScheduleResponse) :
    (∃ m1 : Model, Update lower m (.teamsLoadedMsg teams none) = some (m1, []) ∧
      m1.loading = false ∧ m1.err = m.err ∧
      payloads m1 = (teams, m.roster, m.playerStats, m.standings, m.schedule)) ∧
    (∃ m1 : Model, Update lower m (.rosterLoadedMsg roster none) = some (m1, []) ∧
      m1.loading = false ∧ m1.err = m.err ∧
      payloads m1 = (m.teams, roster, m.playerStats, m.standings, m.schedule)) ∧
    (∃ m1 : Model, Update lower m (.playerStatsLoadedMsg stats none) = some (m1, []) ∧
      m1.loading = false ∧ m1.err = m.err ∧
      payloads m1 = (m.teams, m.roster, stats, m.standings, m.schedule)) ∧
    (∃ m1 : Model, Update lower m (.standingsLoadedMsg standings none) = some (m1, []) ∧
      m1.loading = false ∧ m1.err = m.err ∧
      payloads m1 = (m.teams, m.roster, m.playerStats, standings, m.schedule)) ∧
    (∃ m1 : Model, Update lower m (.scheduleLoadedMsg schedule none) = some (m1, []) ∧
      m1.loading = false ∧ m1.err = m.err ∧
      payloads m1 = (m.teams, m.roster, m.playerStats, m.standings, schedule)) ∧
    (∃ m2 : Model, run lower NewModel staleErrorTrace = some m2 ∧
      m2.currentView = .ViewStandings ∧ m2.standings = some standingsSample ∧
      m2.loading = false ∧ m2.err = some "request failed" ∧
      viewBody m2 = .error "request failed") :=
  ⟨⟨_, rfl, rfl, rfl, rfl⟩, ⟨_, rfl, rfl, rfl, rfl⟩, ⟨_, rfl, rfl, rfl, rfl⟩,
    ⟨_, rfl, rfl, rfl, rfl⟩, ⟨_, rfl, rfl, rfl, rfl⟩,
    ⟨_, rfl, rfl, rfl, rfl, rfl, rfl⟩⟩


/-- The inner loop of `PrintStats` prints exactly the splits it does not skip. -/
theorem printSplits_eq (season groupName : String) (splits : List StatSplit) :
    printSplits season groupName splits
      = (splits.filter (fun split => !skipSplit season split)).flatMap (printSplit groupName) := by
  induction splits with
  | nil => rfl
  | cons split rest ih =>
    by_cases h : skipSplit season split = true
    · simp [printSplits, h, ih]
    · simp [printSplits, h, ih]

/-- Claim C21, evaluated on the code: with the season "2024" and the table format,
`PrintStats` on a hitter with the splits 2023, 2024 and career prints the 2024 split
and also the career split, whose season is empty, under the label "Career"; so not
every printed split has the requested season, while the help of the `stats` command
announces "Only 2024 season" for `--season 2024`. -/
theorem printStats_prints_career :
    PrintStats ⟨.FormatTable⟩ statsThreeSplits "2024" =
      .text ["\n⚾ Stats for Mookie Betts\n", "\nhitting Stats:\n",
        String.mk (List.replicate 80 '─') ++ "\n",
        "\n  2024:\n", "    AVG: .289\n", "\n  Career:\n", "    AVG: .294\n"] ∧
    printedSplits statsThreeSplits "2024"
      = [⟨"2024", [("avg", ".289")]⟩, ⟨"", [("avg", ".294")]⟩] ∧
    ¬ (∀ split ∈ printedSplits statsThreeSplits "2024", split.Season = "2024") := by
  refine ⟨by decide, by decide, by decide⟩

/-- With a non-empty season the inner loop keeps a split exactly when its season is
the requested one or is empty. -/
theorem skipSplit_eq (season : String) (split : StatSplit) (hs : season ≠ "") :
    (!skipSplit season split) = decide (split.Season = season ∨ split.Season = "") := by
  unfold skipSplit
  by_cases h1 : split.Season = season <;> by_cases h2 : split.Season = "" <;> simp [hs, h1, h2]

/-- The outer loop of `PrintStats` prints, for each group with at least one split, its
two header chunks and the splits the inner loop keeps. -/
theorem printGroups_eq (season : String) (hs : season ≠ "") (groups : List StatGroup) :
    printGroups season groups
      = (groups.filter (fun g => decide (g.Splits ≠ []))).flatMap (fun g =>
          ["\n" ++ g.GroupDisplayName ++ " Stats:\n",
            String.mk (List.replicate 80 '─') ++ "\n"] ++
          (g.Splits.filter (fun split =>
              decide (split.Season = season ∨ split.Season = ""))).flatMap
            (printSplit g.GroupDisplayName)) := by
  induction groups with
  | nil => rfl
  | cons g rest ih =>
    have hfilter : g.Splits.filter (fun split => !skipSplit season split)
        = g.Splits.filter (fun split =>
            decide (split.Season = season ∨ split.Season = "")) := by
      congr 1
      funext split
      exact skipSplit_eq season split hs
    by_cases h : g.Splits = []
    · simp [printGroups, h, ih, len]
    · have hlen : ¬ len g.Splits = 0 := by
        unfold len
        intro h0
        exact h (List.length_eq_zero.mp (by omega))
      simp only [printGroups, if_neg hlen, ih, printSplits_eq, hfilter]
      rw [List.filter_cons_of_pos (by simpa using h), List.flatMap_cons]

/-- The season filter of `PrintStats` in general: in a non-JSON format and with a
non-empty season `s`, it prints, for each group of the first player with at least one
split, the group header and exactly the splits whose season is `s` or is empty; so
every printed split has `Season = s` or is the split with the empty season, and every
such split of the player is printed. -/
theorem printStats_season_filter (f : Formatter) (stats : PlayerStatsResponse)
    (season : String) (hfmt : f.format ≠ .FormatJSON) (hs : season ≠ "") :
    (∀ (player : PlayerWithStats) (rest : List PlayerWithStats),
      stats.People = player :: rest →
      PrintStats f stats season =
        .text (["\n⚾ Stats for " ++ player.FullName ++ "\n"] ++
          (player.Stats.filter (fun g => decide (g.Splits ≠ []))).flatMap (fun g =>
            ["\n" ++ g.GroupDisplayName ++ " Stats:\n",
              String.mk (List.replicate 80 '─') ++ "\n"] ++
            (g.Splits.filter (fun split =>
                decide (split.Season = season ∨ split.Season = ""))).flatMap
              (printSplit g.GroupDisplayName)))) ∧
    (∀ split ∈ printedSplits stats season, split.Season = season ∨ split.Season = "") ∧
    (∀ (player : PlayerWithStats) (rest : List PlayerWithStats),
      stats.People = player :: rest →
      ∀ g ∈ player.Stats, ∀ split ∈ g.Splits,
        split.Season = season ∨ split.Season = "" → split ∈ printedSplits stats season) := by
  refine ⟨?_, ?_, ?_⟩
  · intro player rest hp
    unfold PrintStats
    rw [if_neg hfmt, hp]
    simp only [printGroups_eq season hs]
  · intro split hmem
    unfold printedSplits at hmem
    cases hp : stats.People with
    | nil => simp [hp] at hmem
    | cons player rest =>
      simp only [hp, List.mem_flatMap, List.mem_filter] at hmem
      obtain ⟨g, _, _, hkeep⟩ := hmem
      rw [skipSplit_eq season split hs] at hkeep
      exact of_decide_eq_true hkeep
  · intro player rest hp g hg split hsplit hcond
    unfold printedSplits
    simp only [hp, List.mem_flatMap, List.mem_filter]
    refine ⟨g, hg, hsplit, ?_⟩
    rw [skipSplit_eq season split hs]
    exact decide_eq_true hcond

/-- The season filter applied to the hitter with the splits 2023, 2024 and career,
printed in the table format for the season "2024". -/
theorem printStats_season_filter_witness :
    (∀ split ∈ printedSplits statsThreeSplits "2024",
      split.Season = "2024" ∨ split.Season = "") ∧
    (⟨"", [("avg", ".294")]⟩ : StatSplit) ∈ printedSplits statsThreeSplits "2024" :=
  have h := printStats_season_filter ⟨.FormatTable⟩ statsThreeSplits "2024"
    (by decide) (by decide)
  ⟨h.2.1,
    h.2.2 ⟨"Mookie Betts", [⟨"hitting",
        [⟨"2023", [("avg", ".307")]⟩, ⟨"2024", [("avg", ".289")]⟩,
         ⟨"", [("avg", ".294")]⟩]⟩]⟩ [] rfl
      ⟨"hitting", [⟨"2023", [("avg", ".307")]⟩, ⟨"2024", [("avg", ".289")]⟩,
         ⟨"", [("avg", ".294")]⟩]⟩ (by decide)
      ⟨"", [("avg", ".294")]⟩ (by decide) (Or.inr rfl)⟩


/-- Claim C22: for every input, `ResolveTeamID` returns the input unchanged when it
parses as a decimal integer; otherwise, when its upper-casing is a key of
`TeamAbbreviations`, the decimal rendering of the mapped ID; otherwise an error, and an
error in that last case only.  Each of the thirty abbreviations of the `get roster`
help text is a key of the table, so every input that upper-cases to one of them
resolves to its ID, as "lad" does to "119". -/
theorem ResolveTeamID_cases (Atoi : String → Option Int) (ToUpper : String → String)
    (input : String) :
    (Atoi input ≠ none → ResolveTeamID Atoi ToUpper input = .ok input) ∧
    (∀ id : Int, Atoi input = none → GetTeamID (ToUpper input) = some id →
      ResolveTeamID Atoi ToUpper input = .ok (sprintfD id)) ∧
    ((∃ e : String, ResolveTeamID Atoi ToUpper input = .error e) ↔
      (Atoi input = none ∧ GetTeamID (ToUpper input) = none)) ∧
    (helpAbbreviations.length = 30 ∧
      ∀ a ∈ helpAbbreviations, ∃ id : Int, GetTeamID a = some id ∧
        (Atoi input = none → ToUpper input = a →
          ResolveTeamID Atoi ToUpper input = .ok (sprintfD id))) ∧
    ResolveTeamID atoiDecimal asciiUpper "lad" = .ok "119" ∧
    ResolveTeamID atoiDecimal asciiUpper "119" = .ok "119" := by
  have hok : ∀ id : Int, Atoi input = none → GetTeamID (ToUpper input) = some id →
      ResolveTeamID Atoi ToUpper input = .ok (sprintfD id) := by
    intro id h1 h2
    simp only [ResolveTeamID, h1, h2]
  refine ⟨?_, hok, ?_, ⟨rfl, ?_⟩, rfl, rfl⟩
  · intro h
    cases ha : Atoi input with
    | none => exact absurd ha h
    | some v => simp only [ResolveTeamID, ha]
  · constructor
    · rintro ⟨e, he⟩
      cases ha : Atoi input with
      | some v => simp [ResolveTeamID, ha] at he
      | none =>
        cases hg : GetTeamID (ToUpper input) with
        | some id => simp [ResolveTeamID, ha, hg] at he
        | none => exact ⟨rfl, rfl⟩
    · rintro ⟨ha, hg⟩
      exact ⟨"unknown team: " ++ input ++
        " (use team abbreviation like LAD, NYY, or team ID)",
        by simp only [ResolveTeamID, ha, hg]⟩
  · intro a hmem
    have hall : ∀ b ∈ helpAbbreviations, (GetTeamID b).isSome = true := by decide
    have hkey : ∃ id : Int, GetTeamID a = some id :=
      Option.isSome_iff_exists.mp (hall a hmem)
    obtain ⟨id, hid⟩ := hkey
    exact ⟨id, hid, fun h1 h2 => hok id h1 (by rw [h2]; exact hid)⟩

/-- Witness of claim C22: the inputs "Nyy", "119" and "xyz" with the decimal parser
and the ASCII upper-casing. -/
theorem ResolveTeamID_cases_witness :
    ResolveTeamID atoiDecimal asciiUpper "119" = .ok "119" ∧
    ResolveTeamID atoiDecimal asciiUpper "Nyy" = .ok (sprintfD 147) ∧
    (∃ e : String, ResolveTeamID atoiDecimal asciiUpper "xyz" = .error e) ∧
    (∃ id : Int, GetTeamID "SF" = some id ∧
      (atoiDecimal "sf" = none → asciiUpper "sf" = "SF" →
        ResolveTeamID atoiDecimal asciiUpper "sf" = .ok (sprintfD id))) :=
  ⟨(ResolveTeamID_cases atoiDecimal asciiUpper "119").1 (by decide),
    (ResolveTeamID_cases atoiDecimal asciiUpper "Nyy").2.1 147 (by decide) (by decide),
    (ResolveTeamID_cases atoiDecimal asciiUpper "xyz").2.2.1.mpr ⟨by decide, by decide⟩,
    (ResolveTeamID_cases atoiDecimal asciiUpper "sf").2.2.2.1.2 "SF" (by decide)⟩


/-- A property that holds initially and is kept by every step of `Update` holds after
every run. -/
theorem run_invariant (lower : String → String) (P : Model → Prop)
    (hstep : ∀ (m : Model) (msg : Msg) (m1 : Model) (cmds : List Cmd),
      P m → Update lower m msg = some (m1, cmds) → P m1) :
    ∀ (msgs : List Msg) (m0 m : Model), P m0 → run lower m0 msgs = some m → P m := by
  intro msgs
  induction msgs with
  | nil =>
    intro m0 m h0 hrun
    simp only [run, Option.some.injEq] at hrun
    exact hrun ▸ h0
  | cons msg rest ih =>
    intro m0 m h0 hrun
    simp only [run] at hrun
    cases hu : Update lower m0 msg with
    | none => simp [hu] at hrun
    | some r =>
      obtain ⟨m1, cmds⟩ := r
      simp only [hu] at hrun
      exact ih m1 m (hstep m0 msg m1 cmds h0 hu) hrun

/-- The state `applyFilter` returns differs from its argument in the matching indices
and the cursor only. -/
theorem applyFilter_shape (lower : String → String) (m : Model) :
    ∃ (fl : List Int) (c : Int), applyFilter lower m = { m with filteredList := fl, cursor := c } := by
  unfold applyFilter
  split_ifs with h
  · exact ⟨_, _, rfl⟩
  · cases hv : m.currentView <;> simp only [hv] <;> split_ifs <;> exact ⟨_, _, rfl⟩

/-- The state `moveCursor` returns differs from its argument in the cursor only. -/
theorem moveCursor_shape (m : Model) (d : Int) :
    ∃ c : Int, moveCursor m d = { m with cursor := c } := by
  unfold moveCursor
  simp only []
  split_ifs <;> exact ⟨_, rfl⟩

/-- The three outcomes of `handleSelect`: nothing changes, or the drill-down from the
Teams view, or the drill-down from the Roster view. -/
theorem handleSelect_cases (m m1 : Model) (cmds : List Cmd)
    (h : handleSelect m = some (m1, cmds)) :
    (m1 = m ∧ cmds = []) ∨
    (m.currentView = .ViewTeams ∧ ∃ t : Team,
      m1 = resetFilter { m with
        selectedTeam := some t, history := m.history ++ [.ViewTeams],
        currentView := .ViewRoster, cursor := 0, loading := true }) ∨
    (m.currentView = .ViewRoster ∧ ∃ r : RosterEntry, r ∈ m.roster ∧
      m1 = { m with
        selectedPlayer := some r, playerStats := none,
        history := m.history ++ [.ViewRoster], currentView := .ViewPlayer, cursor := 0,
        loading := true }) := by
  unfold handleSelect at h
  split at h
  · rename_i hv
    split_ifs at h with h1
    · split at h
      · exact absurd h (by simp)
      · split_ifs at h with h2
        · split at h
          · exact absurd h (by simp)
          · rename_i t ht
            simp only [Option.some.injEq, Prod.mk.injEq] at h
            exact Or.inr (Or.inl ⟨hv, t, by rw [← h.1]; simp [pushHistory, hv, resetFilter]⟩)
        · simp only [Option.some.injEq, Prod.mk.injEq] at h
          exact Or.inl ⟨h.1.symm, h.2.symm⟩
    · simp only [Option.some.injEq, Prod.mk.injEq] at h
      exact Or.inl ⟨h.1.symm, h.2.symm⟩
  · rename_i hv
    split_ifs at h with h1
    · split at h
      · exact absurd h (by simp)
      · split_ifs at h with h2
        · split at h
          · exact absurd h (by simp)
          · rename_i idx hidx r hr
            simp only [Option.some.injEq, Prod.mk.injEq] at h
            refine Or.inr (Or.inr ⟨hv, r, ?_, by rw [← h.1]; simp [pushHistory, hv]⟩)
            unfold index at hr
            split_ifs at hr
            exact List.get?_mem hr
        · simp only [Option.some.injEq, Prod.mk.injEq] at h
          exact Or.inl ⟨h.1.symm, h.2.symm⟩
    · simp only [Option.some.injEq, Prod.mk.injEq] at h
      exact Or.inl ⟨h.1.symm, h.2.symm⟩
  · simp only [Option.some.injEq, Prod.mk.injEq] at h
    exact Or.inl ⟨h.1.symm, h.2.symm⟩

/-- The two outcomes of `handleBack`: nothing changes on an empty history, or the last
view of the history is restored. -/
theorem handleBack_cases (m : Model) :
    (m.history = [] ∧ handleBack m = (m, [])) ∨
    (∃ (h : List View) (v : View), m.history = h ++ [v] ∧
      handleBack m = (resetFilter { m with currentView := v, history := h, cursor := 0 }, [])) := by
  rcases List.eq_nil_or_concat m.history with hnil | ⟨h, v, hcat⟩
  · left
    exact ⟨hnil, by simp [handleBack, hnil]⟩
  · right
    refine ⟨h, v, by simpa using hcat, ?_⟩
    simp [handleBack, hcat]


/-- The state `refresh` returns is its argument with `loading` set and the error
cleared, whatever the view. -/
theorem refresh_fst (m : Model) : (refresh m).1 = { m with loading := true, err := none } := by
  unfold refresh
  cases hv : m.currentView <;> simp only [hv]
  · cases m.selectedTeam <;> rfl
  · cases m.selectedPlayer <;> rfl

/-- The function `applyFilter` changes nothing outside the filter. -/
theorem outsideFilter_applyFilter (lower : String → String) (m : Model) :
    outsideFilter (applyFilter lower m) = outsideFilter m := by
  obtain ⟨fl, c, h⟩ := applyFilter_shape lower m
  rw [h]
  rfl

/-- A key in filter mode changes nothing outside the filter, and the only command it
can return is the one of the text input. -/
theorem handleFilterInput_frame (lower : String → String) (m : Model) (k : KeyMsg)
    (edited : String) :
    outsideFilter (handleFilterInput lower m k edited).1 = outsideFilter m ∧
      ((handleFilterInput lower m k edited).2 = [] ∨
        (handleFilterInput lower m k edited).2 = [Cmd.textInputCmd]) := by
  unfold handleFilterInput
  split_ifs with h1 h2
  · exact ⟨rfl, Or.inl rfl⟩
  · exact ⟨(outsideFilter_applyFilter lower _).trans rfl, Or.inl rfl⟩
  · exact ⟨(outsideFilter_applyFilter lower _).trans rfl, Or.inr rfl⟩

/-- The outcomes of one step of `Update`, as far as the fields read by the invariants
go: they are unchanged, or a list was loaded and the filter reset, or the step was a
Select, a Back, a tab switch, or a key in filter mode. -/
theorem Update_cases (lower : String → String) (m : Model) (msg : Msg) (m1 : Model)
    (cmds : List Cmd) (h : Update lower m msg = some (m1, cmds)) :
    invFields m1 = invFields m ∨
    (∃ ts : List Team, m1 = resetFilter { m with loading := false, teams := ts }) ∨
    (∃ rs : List RosterEntry, m1 = resetFilter { m with loading := false, roster := rs }) ∨
    handleSelect m = some (m1, cmds) ∨
    m1 = (handleBack m).1 ∨ m1 = (nextTab m).1 ∨ m1 = (prevTab m).1 ∨
    (∃ (k : KeyMsg) (edited : String), m1 = (handleFilterInput lower m k edited).1) := by
  cases msg with
  | WindowSizeMsg w hgt =>
    simp only [Update, Option.some.injEq, Prod.mk.injEq] at h
    exact Or.inl (by rw [← h.1]; rfl)
  | KeyMsg k edited =>
    simp only [Update] at h
    split_ifs at h with hf
    · simp only [Option.some.injEq] at h
      exact Or.inr (Or.inr (Or.inr (Or.inr (Or.inr (Or.inr (Or.inr
        ⟨k, edited, by rw [h]⟩))))))
    · unfold handleKeyInput at h
      split_ifs at h
      · simp only [Option.some.injEq, Prod.mk.injEq] at h
        exact Or.inl (by rw [← h.1])
      · simp only [Option.some.injEq, Prod.mk.injEq] at h
        obtain ⟨c, hc⟩ := moveCursor_shape m (-1)
        exact Or.inl (by rw [← h.1, hc]; rfl)
      · simp only [Option.some.injEq, Prod.mk.injEq] at h
        obtain ⟨c, hc⟩ := moveCursor_shape m 1
        exact Or.inl (by rw [← h.1, hc]; rfl)
      · exact Or.inr (Or.inr (Or.inr (Or.inl h)))
      · simp only [Option.some.injEq] at h
        exact Or.inr (Or.inr (Or.inr (Or.inr (Or.inl (by rw [h])))))
      · simp only [Option.some.injEq, Prod.mk.injEq] at h
        exact Or.inl (by rw [← h.1]; rfl)
      · simp only [Option.some.injEq] at h
        exact Or.inr (Or.inr (Or.inr (Or.inr (Or.inr (Or.inl (by rw [h]))))))
      · simp only [Option.some.injEq] at h
        exact Or.inr (Or.inr (Or.inr (Or.inr (Or.inr (Or.inr (Or.inl (by rw [h])))))))
      · simp only [Option.some.injEq] at h
        have h1 : m1 = (refresh m).1 := by rw [h]
        exact Or.inl (by rw [h1, refresh_fst]; rfl)
      · simp only [Option.some.injEq, Prod.mk.injEq] at h
        exact Or.inl (by rw [← h.1])
  | TickMsg frame =>
    simp only [Update] at h
    split_ifs at h <;> simp only [Option.some.injEq, Prod.mk.injEq] at h <;>
      exact Or.inl (by rw [← h.1] <;> rfl)
  | teamsLoadedMsg ts err =>
    cases err with
    | some e =>
      simp only [Update, Option.some.injEq, Prod.mk.injEq] at h
      exact Or.inl (by rw [← h.1]; rfl)
    | none =>
      simp only [Update, Option.some.injEq, Prod.mk.injEq] at h
      exact Or.inr (Or.inl ⟨ts, h.1.symm⟩)
  | rosterLoadedMsg rs err =>
    cases err with
    | some e =>
      simp only [Update, Option.some.injEq, Prod.mk.injEq] at h
      exact Or.inl (by rw [← h.1]; rfl)
    | none =>
      simp only [Update, Option.some.injEq, Prod.mk.injEq] at h
      exact Or.inr (Or.inr (Or.inl ⟨rs, h.1.symm⟩))
  | standingsLoadedMsg s err =>
    cases err <;> simp only [Update, Option.some.injEq, Prod.mk.injEq] at h <;>
      exact Or.inl (by rw [← h.1]; rfl)
  | scheduleLoadedMsg s err =>
    cases err <;> simp only [Update, Option.some.injEq, Prod.mk.injEq] at h <;>
      exact Or.inl (by rw [← h.1]; rfl)
  | playerStatsLoadedMsg s err =>
    cases err <;> simp only [Update, Option.some.injEq, Prod.mk.injEq] at h <;>
      exact Or.inl (by rw [← h.1]; rfl)
  | otherMsg =>
    simp only [Update, Option.some.injEq, Prod.mk.injEq] at h
    exact Or.inl (by rw [← h.1])


/-- Membership in `navShapes`, spelled out. -/
theorem mem_navShapes (m : Model) :
    nav m ∈ navShapes ↔
      (m.history = [] ∧ m.currentView = .ViewTeams ∧ m.currentTab = .TabTeams) ∨
      (m.history = [.ViewTeams] ∧ m.currentView = .ViewRoster ∧
        m.currentTab = .TabTeams) ∨
      (m.history = [.ViewTeams, .ViewRoster] ∧ m.currentView = .ViewPlayer ∧
        m.currentTab = .TabTeams) ∨
      (m.history = [] ∧ m.currentView = .ViewStandings ∧ m.currentTab = .TabStandings) ∨
      (m.history = [] ∧ m.currentView = .ViewSchedule ∧ m.currentTab = .TabSchedule) := by
  simp [nav, navShapes]

/-- The navigation and selection invariants read five fields only. -/
theorem navSel_congr (m m1 : Model) (h1 : m1.history = m.history)
    (h2 : m1.currentView = m.currentView) (h3 : m1.currentTab = m.currentTab)
    (h4 : m1.selectedTeam = m.selectedTeam) (h5 : m1.selectedPlayer = m.selectedPlayer)
    (h : nav m ∈ navShapes ∧ selectionPresent m) :
    nav m1 ∈ navShapes ∧ selectionPresent m1 := by
  unfold nav selectionPresent at *
  rw [h1, h2, h3, h4, h5]
  exact h

/-- The navigation and selection invariants after entering a tab. -/
theorem navSel_switchToTab (m : Model) :
    nav (switchToTab m).1 ∈ navShapes ∧ selectionPresent (switchToTab m).1 := by
  obtain ⟨h1, _, _, _, h5, h6⟩ := switchToTab_resets m
  constructor
  · rw [mem_navShapes, h1, h5, h6]
    cases m.currentTab <;> simp [defaultView]
  · unfold selectionPresent
    rw [h6]
    cases m.currentTab <;> simp [defaultView]

/-- One step of `Update` keeps the navigation and selection invariants. -/
theorem navSel_step (lower : String → String) (m : Model) (msg : Msg) (m1 : Model)
    (cmds : List Cmd) (hinv : nav m ∈ navShapes ∧ selectionPresent m)
    (h : Update lower m msg = some (m1, cmds)) :
    nav m1 ∈ navShapes ∧ selectionPresent m1 := by
  rcases Update_cases lower m msg m1 cmds h with
    hf | ⟨ts, rfl⟩ | ⟨rs, rfl⟩ | hs | rfl | rfl | rfl | ⟨k, e, rfl⟩
  · simp only [invFields, Prod.mk.injEq] at hf
    exact navSel_congr m m1 hf.1 hf.2.1 hf.2.2.1 hf.2.2.2.1 hf.2.2.2.2.1 hinv
  · exact navSel_congr m _ rfl rfl rfl rfl rfl hinv
  · exact navSel_congr m _ rfl rfl rfl rfl rfl hinv
  · rcases handleSelect_cases m m1 cmds hs with ⟨rfl, _⟩ | ⟨hv, t, rfl⟩ | ⟨hv, r, _, rfl⟩
    · exact hinv
    · obtain ⟨hshape, _⟩ := hinv
      rw [mem_navShapes] at hshape
      constructor
      · rw [mem_navShapes]
        rcases hshape with ⟨a, _, c⟩ | ⟨_, b, _⟩ | ⟨_, b, _⟩ | ⟨_, b, _⟩ | ⟨_, b, _⟩
        · simp [resetFilter, a, c]
        all_goals (rw [hv] at b; exact absurd b (by decide))
      · simp [selectionPresent, resetFilter]
    · obtain ⟨hshape, hsel⟩ := hinv
      rw [mem_navShapes] at hshape
      constructor
      · rw [mem_navShapes]
        rcases hshape with ⟨_, b, _⟩ | ⟨a, _, c⟩ | ⟨_, b, _⟩ | ⟨_, b, _⟩ | ⟨_, b, _⟩
        · rw [hv] at b; exact absurd b (by decide)
        · simp [a, c]
        all_goals (rw [hv] at b; exact absurd b (by decide))
      · have ht := hsel.1 hv
        simp [selectionPresent, ht]
  · rcases handleBack_cases m with ⟨_, hb⟩ | ⟨hl, v, hcat, hb⟩
    · rw [hb]
      exact hinv
    · rw [hb]
      obtain ⟨hshape, hsel⟩ := hinv
      rw [mem_navShapes] at hshape
      rcases hshape with ⟨a, _, _⟩ | ⟨a, b, c⟩ | ⟨a, b, c⟩ | ⟨a, _, _⟩ | ⟨a, _, _⟩
      · rw [a] at hcat; simp at hcat
      · rw [a] at hcat
        have hlv : hl = [] ∧ v = .ViewTeams := by
          cases hl with
          | nil => simpa [eq_comm] using hcat
          | cons x xs => simp at hcat
        obtain ⟨rfl, rfl⟩ := hlv
        constructor
        · rw [mem_navShapes]; simp [resetFilter, c]
        · simp [selectionPresent, resetFilter]
      · rw [a] at hcat
        have hlv : hl = [.ViewTeams] ∧ v = .ViewRoster := by
          cases hl with
          | nil => simp at hcat
          | cons x xs =>
            cases xs with
            | nil => simpa [eq_comm] using hcat
            | cons y ys => simp at hcat
        obtain ⟨rfl, rfl⟩ := hlv
        have ht := (hsel.2 b).1
        constructor
        · rw [mem_navShapes]; simp [resetFilter, c]
        · simp [selectionPresent, resetFilter, ht]
      · rw [a] at hcat; simp at hcat
      · rw [a] at hcat; simp at hcat
  · exact navSel_switchToTab _
  · exact navSel_switchToTab _
  · obtain ⟨hframe, _⟩ := handleFilterInput_frame lower m k e
    simp only [outsideFilter, Prod.mk.injEq] at hframe
    exact navSel_congr m _ hframe.2.2.1 hframe.1 hframe.2.1 hframe.2.2.2.1
      hframe.2.2.2.2.1 hinv


/-- The navigation and selection invariants hold in every reachable state. -/
theorem navSel_reachable (lower : String → String) (m : Model) (h : Reachable lower m) :
    nav m ∈ navShapes ∧ selectionPresent m := by
  obtain ⟨msgs, hrun⟩ := h
  refine run_invariant lower (fun s => nav s ∈ navShapes ∧ selectionPresent s)
    (fun s msg s1 cmds hs hu => navSel_step lower s msg s1 cmds hs hu)
    msgs NewModel m ?_ hrun
  constructor
  · decide
  · simp [selectionPresent, NewModel]

/-- Claim C23: in every state reachable from `NewModel` the triple of history, current
view and current tab is one of the five shapes `([], Teams, TabTeams)`,
`([Teams], Roster, TabTeams)`, `([Teams, Roster], Player, TabTeams)`,
`([], Standings, TabStandings)`, `([], Schedule, TabSchedule)`, so the history has at
most two elements and the view belongs to the tab; and each of the five shapes is
reached. -/
theorem reachable_nav_shape (lower : String → String) :
    (∀ m : Model, Reachable lower m →
      nav m ∈ navShapes ∧ m.history.length ≤ 2 ∧
      (m.currentTab = .TabTeams ↔
        m.currentView ∈ [View.ViewTeams, View.ViewRoster, View.ViewPlayer]) ∧
      (m.currentTab = .TabStandings ↔ m.currentView = .ViewStandings) ∧
      (m.currentTab = .TabSchedule ↔ m.currentView = .ViewSchedule)) ∧
    (∀ s ∈ navShapes, ∃ m : Model, Reachable lower m ∧ nav m = s) := by
  constructor
  · intro m hm
    have hshape := (navSel_reachable lower m hm).1
    refine ⟨hshape, ?_⟩
    rw [mem_navShapes] at hshape
    rcases hshape with ⟨a, b, c⟩ | ⟨a, b, c⟩ | ⟨a, b, c⟩ | ⟨a, b, c⟩ | ⟨a, b, c⟩ <;>
      simp [a, b, c]
  · intro s hs
    simp only [navShapes, List.mem_cons, List.mem_singleton, List.not_mem_nil,
      or_false] at hs
    rcases hs with rfl | rfl | rfl | rfl | rfl
    · exact ⟨_, ⟨[], rfl⟩, rfl⟩
    · exact ⟨_, ⟨[.teamsLoadedMsg [teamLAD, teamNYY, teamBOS] none, keyEnter], rfl⟩, rfl⟩
    · exact ⟨_, ⟨[.teamsLoadedMsg [teamLAD, teamNYY, teamBOS] none, keyEnter,
        .rosterLoadedMsg rosterLAD none, keyEnter], rfl⟩, rfl⟩
    · exact ⟨_, ⟨[keyTab], rfl⟩, rfl⟩
    · exact ⟨_, ⟨[keyShiftTab], rfl⟩, rfl⟩

/-- Witness of claim C23: the state reached by loading three teams, opening the first,
loading its roster and opening its first player. -/
theorem reachable_nav_shape_witness :
    ∃ m : Model,
      run asciiLower NewModel
        [.teamsLoadedMsg [teamLAD, teamNYY, teamBOS] none, keyEnter,
         .rosterLoadedMsg rosterLAD none, keyEnter] = some m ∧
      nav m = ([.ViewTeams, .ViewRoster], .ViewPlayer, .TabTeams) ∧
      nav m ∈ navShapes ∧ m.history.length ≤ 2 ∧
      (∃ m2 : Model, Reachable asciiLower m2 ∧
        nav m2 = ([], View.ViewStandings, Tab.TabStandings)) :=
  ⟨_, rfl, rfl,
    ((reachable_nav_shape asciiLower).1 _
      ⟨[.teamsLoadedMsg [teamLAD, teamNYY, teamBOS] none, keyEnter,
        .rosterLoadedMsg rosterLAD none, keyEnter], rfl⟩).1,
    ((reachable_nav_shape asciiLower).1 _
      ⟨[.teamsLoadedMsg [teamLAD, teamNYY, teamBOS] none, keyEnter,
        .rosterLoadedMsg rosterLAD none, keyEnter], rfl⟩).2.1,
    (reachable_nav_shape asciiLower).2 _ (by decide)⟩

/-- Claim C24: in every state reachable from `NewModel`, the Roster view has a selected
team and the Player view has a selected team and a selected roster entry; hence
`refresh` always issues a load request there, the branches that find the selection
absent being unreachable. -/
theorem reachable_selection_present (lower : String → String) (m : Model)
    (h : Reachable lower m) :
    (m.currentView = .ViewRoster → m.selectedTeam ≠ none) ∧
    (m.currentView = .ViewPlayer → m.selectedTeam ≠ none ∧ m.selectedPlayer ≠ none) ∧
    (refresh m).2 ≠ [] := by
  obtain ⟨hroster, hplayer⟩ := (navSel_reachable lower m h).2
  refine ⟨hroster, hplayer, ?_⟩
  unfold refresh
  cases hv : m.currentView <;> simp only [hv]
  · simp
  · cases ht : m.selectedTeam with
    | none => exact absurd ht (hroster hv)
    | some t => simp
  · cases hp : m.selectedPlayer with
    | none => exact absurd hp (hplayer hv).2
    | some r => simp
  · simp
  · simp

/-- Witness of claim C24: the state reached by loading three teams, opening the first,
loading its roster and opening its first player. -/
theorem reachable_selection_present_witness :
    ∃ m : Model,
      run asciiLower NewModel
        [.teamsLoadedMsg [teamLAD, teamNYY, teamBOS] none, keyEnter,
         .rosterLoadedMsg rosterLAD none, keyEnter] = some m ∧
      m.currentView = .ViewPlayer ∧
      (m.currentView = .ViewPlayer → m.selectedTeam ≠ none ∧ m.selectedPlayer ≠ none) ∧
      (refresh m).2 ≠ [] :=
  ⟨_, rfl, rfl,
    (reachable_selection_present asciiLower _
      ⟨[.teamsLoadedMsg [teamLAD, teamNYY, teamBOS] none, keyEnter,
        .rosterLoadedMsg rosterLAD none, keyEnter], rfl⟩).2.1,
    (reachable_selection_present asciiLower _
      ⟨[.teamsLoadedMsg [teamLAD, teamNYY, teamBOS] none, keyEnter,
        .rosterLoadedMsg rosterLAD none, keyEnter], rfl⟩).2.2⟩


/-- An index expression that reads an element has its index within the bounds. -/
theorem index_bounds {α : Type} (xs : List α) (j : Int) (x : α)
    (h : index xs j = some x) : 0 ≤ j ∧ j < len xs := by
  unfold index at h
  split_ifs at h with hneg
  have hlt : j.toNat < xs.length := by
    by_contra hge
    rw [List.get?_eq_none.mpr (by omega)] at h
    exact absurd h (by simp)
  unfold len
  omega

/-- The indices collected by the matching loop started at 0 are within the bounds of
the list. -/
theorem appendMatches_bounds {α : Type} (p : α → Bool) (xs : List α) :
    ∀ i ∈ appendMatches p xs 0 [], 0 ≤ i ∧ i < len xs := by
  intro i hi
  obtain ⟨x, hx, _⟩ := (mem_appendMatches_zero p xs i).mp hi
  exact index_bounds xs i x hx

/-- A state without matching indices satisfies the filter invariant. -/
theorem filterValid_nil (m : Model) (h : m.filteredList = []) : filterValid m := by
  unfold filterValid
  rw [h]
  simp

/-- The filter invariant reads four fields only. -/
theorem filterValid_congr (m m1 : Model) (h1 : m1.currentView = m.currentView)
    (h2 : m1.teams = m.teams) (h3 : m1.roster = m.roster)
    (h4 : m1.filteredList = m.filteredList) (h : filterValid m) : filterValid m1 := by
  unfold filterValid at *
  rw [h1, h2, h3, h4]
  exact h

/-- The state returned by `applyFilter` satisfies the filter invariant, whatever the
state before. -/
theorem filterValid_applyFilter (lower : String → String) (m : Model) :
    filterValid (applyFilter lower m) := by
  obtain ⟨hv, ht, hr⟩ := applyFilter_frame lower m
  by_cases he : m.filterText = ""
  · apply filterValid_nil
    rw [applyFilter_empty lower m he]
  · by_cases hteams : m.currentView = .ViewTeams
    · unfold filterValid
      rw [hv, ht, hr, applyFilter_teams lower m hteams he]
      refine ⟨pairwise_appendMatches _ _ 0, fun _ => appendMatches_bounds _ _, ?_⟩
      intro h
      rw [hteams] at h
      rcases h with h | h <;> exact absurd h (by decide)
    · by_cases hroster : m.currentView = .ViewRoster
      · unfold filterValid
        rw [hv, ht, hr, applyFilter_roster lower m hroster he]
        refine ⟨pairwise_appendMatches _ _ 0, fun h => absurd h hteams,
          fun _ => appendMatches_bounds _ _⟩
      · exact filterValid_nil _ (applyFilter_other lower m hteams hroster)

/-- The state returned by a key in filter mode satisfies the filter invariant. -/
theorem filterValid_handleFilterInput (lower : String → String) (m : Model)
    (k : KeyMsg) (edited : String) :
    filterValid (handleFilterInput lower m k edited).1 := by
  unfold handleFilterInput
  split_ifs with h1 h2
  · exact filterValid_nil _ rfl
  · exact filterValid_applyFilter lower _
  · exact filterValid_applyFilter lower _

/-- One step of `Update` keeps the filter invariant. -/
theorem filterValid_step (lower : String → String) (m : Model) (msg : Msg) (m1 : Model)
    (cmds : List Cmd) (hinv : filterValid m)
    (h : Update lower m msg = some (m1, cmds)) : filterValid m1 := by
  rcases Update_cases lower m msg m1 cmds h with
    hf | ⟨ts, rfl⟩ | ⟨rs, rfl⟩ | hs | rfl | rfl | rfl | ⟨k, e, rfl⟩
  · simp only [invFields, Prod.mk.injEq] at hf
    exact filterValid_congr m m1 hf.2.1 hf.2.2.2.2.2.1 hf.2.2.2.2.2.2.1
      hf.2.2.2.2.2.2.2 hinv
  · exact filterValid_nil _ rfl
  · exact filterValid_nil _ rfl
  · rcases handleSelect_cases m m1 cmds hs with ⟨rfl, _⟩ | ⟨_, t, rfl⟩ | ⟨hv, r, _, rfl⟩
    · exact hinv
    · exact filterValid_nil _ rfl
    · unfold filterValid at *
      refine ⟨hinv.1,
        fun h => absurd (show View.ViewPlayer = View.ViewTeams from h) (by decide),
        fun _ => hinv.2.2 (Or.inl hv)⟩
  · rcases handleBack_cases m with ⟨_, hb⟩ | ⟨hl, v, _, hb⟩
    · rw [hb]
      exact hinv
    · rw [hb]
      exact filterValid_nil _ rfl
  · exact filterValid_nil _ (switchToTab_resets _).2.2.2.1
  · exact filterValid_nil _ (switchToTab_resets _).2.2.2.1
  · exact filterValid_handleFilterInput lower m k e

/-- Claim C25: in every state reachable from `NewModel` the matching indices are
strictly increasing, and each of them is a valid index (`0 ≤ i < len`) of the team list
in the Teams view and of the roster in the Roster and Player views. -/
theorem reachable_filter_valid (lower : String → String) (m : Model)
    (h : Reachable lower m) :
    m.filteredList.Pairwise (fun a b => a < b) ∧
    (m.currentView = .ViewTeams → ∀ i ∈ m.filteredList, 0 ≤ i ∧ i < len m.teams) ∧
    (m.currentView = .ViewRoster ∨ m.currentView = .ViewPlayer →
      ∀ i ∈ m.filteredList, 0 ≤ i ∧ i < len m.roster) := by
  obtain ⟨msgs, hrun⟩ := h
  exact run_invariant lower filterValid
    (fun s msg s1 cmds hs hu => filterValid_step lower s msg s1 cmds hs hu)
    msgs NewModel m (filterValid_nil _ rfl) hrun

/-- Witness of claim C25: three teams filtered by "os" in filter mode. -/
theorem reachable_filter_valid_witness :
    ∃ m : Model,
      run asciiLower NewModel
        [.teamsLoadedMsg [teamLAD, teamNYY, teamBOS] none, keySlash,
         .KeyMsg ⟨.KeyOther, "o"⟩ "o", .KeyMsg ⟨.KeyOther, "s"⟩ "os"] = some m ∧
      m.filteredList = [0, 2] ∧
      m.filteredList.Pairwise (fun a b => a < b) ∧
      (m.currentView = .ViewTeams → ∀ i ∈ m.filteredList, 0 ≤ i ∧ i < len m.teams) :=
  ⟨_, rfl, by decide,
    (reachable_filter_valid asciiLower _
      ⟨[.teamsLoadedMsg [teamLAD, teamNYY, teamBOS] none, keySlash,
        .KeyMsg ⟨.KeyOther, "o"⟩ "o", .KeyMsg ⟨.KeyOther, "s"⟩ "os"], rfl⟩).1,
    (reachable_filter_valid asciiLower _
      ⟨[.teamsLoadedMsg [teamLAD, teamNYY, teamBOS] none, keySlash,
        .KeyMsg ⟨.KeyOther, "o"⟩ "o", .KeyMsg ⟨.KeyOther, "s"⟩ "os"], rfl⟩).2.1⟩


/-- The number of visible rows used by the render functions is at least 5. -/
theorem visibleItems_ge (m : Model) : 5 ≤ visibleItems m := by
  unfold visibleItems
  simp only []
  split_ifs <;> omega

/-- Claim C26: for `total ≥ 0`, `visible ≥ 0` and any cursor whatsoever,
`calculateVisibleRange` returns `(start, stop)` with `0 ≤ start ≤ stop ≤ total`; so
every index `i` with `start ≤ i < stop` reads an element of a list of `total` items,
and the loops of `renderTeams` and `renderRoster` over the indices to show stay inside
that list. -/
theorem calculateVisibleRange_bounds (m : Model) (total visible : Int)
    (htotal : 0 ≤ total) (hvis : 0 ≤ visible) :
    (0 ≤ (calculateVisibleRange m total visible).1 ∧
      (calculateVisibleRange m total visible).1 ≤ (calculateVisibleRange m total visible).2 ∧
      (calculateVisibleRange m total visible).2 ≤ total) ∧
    (∀ items : List Int, total = len items → ∀ i : Int,
      (calculateVisibleRange m total visible).1 ≤ i →
      i < (calculateVisibleRange m total visible).2 → ∃ x : Int, index items i = some x) ∧
    (∀ i : Int,
      (calculateVisibleRange m (len (getTeamIndicesToShow m)) (visibleItems m)).1 ≤ i →
      i < (calculateVisibleRange m (len (getTeamIndicesToShow m)) (visibleItems m)).2 →
      ∃ x : Int, index (getTeamIndicesToShow m) i = some x) ∧
    (∀ i : Int,
      (calculateVisibleRange m (len (getRosterIndicesToShow m)) (visibleItems m)).1 ≤ i →
      i < (calculateVisibleRange m (len (getRosterIndicesToShow m)) (visibleItems m)).2 →
      ∃ x : Int, index (getRosterIndicesToShow m) i = some x) := by
  have hrange : ∀ t v : Int, 0 ≤ t → 0 ≤ v →
      0 ≤ (calculateVisibleRange m t v).1 ∧
        (calculateVisibleRange m t v).1 ≤ (calculateVisibleRange m t v).2 ∧
        (calculateVisibleRange m t v).2 ≤ t := by
    intro t v ht hv
    have hdiv : v.tdiv 2 = v / 2 := Int.tdiv_eq_ediv (by omega) (by omega)
    unfold calculateVisibleRange
    simp only [hdiv]
    split_ifs <;> simp only [] <;> omega
  have hloop : ∀ (items : List Int) (v : Int), 0 ≤ v → ∀ i : Int,
      (calculateVisibleRange m (len items) v).1 ≤ i →
      i < (calculateVisibleRange m (len items) v).2 → ∃ x : Int, index items i = some x := by
    intro items v hv i h1 h2
    have hlen : 0 ≤ len items := by unfold len; omega
    obtain ⟨a, _, c⟩ := hrange (len items) v hlen hv
    exact index_of_lt items i (by omega) (by omega)
  have hvisible : 0 ≤ visibleItems m := by
    have := visibleItems_ge m
    omega
  refine ⟨hrange total visible htotal hvis, ?_, ?_, ?_⟩
  · intro items hitems i h1 h2
    subst hitems
    exact hloop items visible hvis i h1 h2
  · exact hloop (getTeamIndicesToShow m) (visibleItems m) hvisible
  · exact hloop (getRosterIndicesToShow m) (visibleItems m) hvisible

/-- Witness of claim C26: thirty rows and ten lines with the cursor at 100, past the
end of the list, and at -7, before its start. -/
theorem calculateVisibleRange_bounds_witness :
    calculateVisibleRange { NewModel with cursor := 100 } 30 10 = (20, 30) ∧
    calculateVisibleRange { NewModel with cursor := -7 } 30 10 = (0, 10) ∧
    (0 ≤ (calculateVisibleRange { NewModel with cursor := 100 } 30 10).1 ∧
      (calculateVisibleRange { NewModel with cursor := 100 } 30 10).1
        ≤ (calculateVisibleRange { NewModel with cursor := 100 } 30 10).2 ∧
      (calculateVisibleRange { NewModel with cursor := 100 } 30 10).2 ≤ 30) ∧
    (0 ≤ (calculateVisibleRange { NewModel with cursor := -7 } 30 10).1 ∧
      (calculateVisibleRange { NewModel with cursor := -7 } 30 10).1
        ≤ (calculateVisibleRange { NewModel with cursor := -7 } 30 10).2 ∧
      (calculateVisibleRange { NewModel with cursor := -7 } 30 10).2 ≤ 30) :=
  ⟨by decide, by decide,
    (calculateVisibleRange_bounds { NewModel with cursor := 100 } 30 10
      (by decide) (by decide)).1,
    (calculateVisibleRange_bounds { NewModel with cursor := -7 } 30 10
      (by decide) (by decide)).1⟩

/-- Claim C27: in filter mode every key press returns a state with the same view, tab,
history, selected team, selected roster entry, cached payloads, loading flag and error
slot, and issues at most the command of the text input, hence no load request and no
quit, whatever the key is bound to outside filter mode. -/
theorem filter_mode_key_frame (lower : String → String) (m : Model) (k : KeyMsg)
    (edited : String) (hmode : m.filterMode = true) :
    ∃ (m1 : Model) (cmds : List Cmd),
      Update lower m (.KeyMsg k edited) = some (m1, cmds) ∧
      m1.currentView = m.currentView ∧ m1.currentTab = m.currentTab ∧
      m1.history = m.history ∧ m1.selectedTeam = m.selectedTeam ∧
      m1.selectedPlayer = m.selectedPlayer ∧ payloads m1 = payloads m ∧
      m1.loading = m.loading ∧ m1.err = m.err ∧
      (cmds = [] ∨ cmds = [Cmd.textInputCmd]) ∧ Cmd.Quit ∉ cmds ∧
      ∀ c ∈ cmds, c = Cmd.textInputCmd := by
  obtain ⟨hframe, hcmds⟩ := handleFilterInput_frame lower m k edited
  simp only [outsideFilter, Prod.mk.injEq] at hframe
  obtain ⟨f1, f2, f3, f4, f5, f6, f7, f8⟩ := hframe
  refine ⟨(handleFilterInput lower m k edited).1, (handleFilterInput lower m k edited).2,
    ?_, f1, f2, f3, f4, f5, f6, f7, f8, hcmds, ?_, ?_⟩
  · simp only [Update, hmode, if_true]
  · rcases hcmds with h | h <;> rw [h] <;> simp
  · rcases hcmds with h | h <;> rw [h] <;> simp

/-- Witness of claim C27: three teams in filter mode and the key "q", which quits
outside filter mode. -/
theorem filter_mode_key_frame_witness :
    handleKeyInput { NewModel with teams := [teamLAD, teamNYY, teamBOS] } ⟨.KeyOther, "q"⟩
      = some ({ NewModel with teams := [teamLAD, teamNYY, teamBOS] }, [Cmd.Quit]) ∧
    ∃ (m1 : Model) (cmds : List Cmd),
      Update asciiLower
          { NewModel with teams := [teamLAD, teamNYY, teamBOS], filterMode := true }
          (.KeyMsg ⟨.KeyOther, "q"⟩ "q") = some (m1, cmds) ∧
      m1.currentView = .ViewTeams ∧ m1.loading = true ∧ Cmd.Quit ∉ cmds :=
  ⟨rfl,
    (filter_mode_key_frame asciiLower
      { NewModel with teams := [teamLAD, teamNYY, teamBOS], filterMode := true }
      ⟨.KeyOther, "q"⟩ "q" rfl).elim fun m1 h1 =>
      h1.elim fun cmds h =>
        ⟨m1, cmds, h.1, h.2.1, h.2.2.2.2.2.2.2.1, h.2.2.2.2.2.2.2.2.2.2.1⟩⟩

/-- Claim C28: Select in the Teams view leaves the cached roster as it is, and Select
in the Roster view takes effect also while `loading` is true; so after selecting the
first team, loading its roster, going back, moving to the second team, selecting it and
pressing Enter before its roster has arrived, the selected team is the second one
while the selected roster entry is an entry of the roster of the first. -/
theorem select_uses_stale_roster (lower : String → String) :
    (∀ (m m1 : Model) (cmds : List Cmd), m.currentView = .ViewTeams →
      handleSelect m = some (m1, cmds) → m1.roster = m.roster) ∧
    (∀ (m : Model) (idx : Int), m.currentView = .ViewRoster → m.loading = true →
      0 < len m.roster → getActualIndex m = some idx → 0 ≤ idx → idx < len m.roster →
      ∃ (r : RosterEntry) (m1 : Model) (cmds : List Cmd),
        index m.roster idx = some r ∧ handleSelect m = some (m1, cmds) ∧
        m1.currentView = .ViewPlayer ∧ m1.selectedPlayer = some r) ∧
    (∃ m : Model, run lower NewModel staleRosterTrace = some m ∧
      m.selectedTeam = some teamNYY ∧ m.selectedPlayer = some entryBetts ∧
      entryBetts ∈ rosterLAD ∧ m.roster = rosterLAD ∧ m.currentView = .ViewPlayer) := by
  refine ⟨?_, ?_, ⟨_, rfl, rfl, rfl, by decide, rfl, rfl⟩⟩
  · intro m m1 cmds hview hsel
    rcases handleSelect_cases m m1 cmds hsel with ⟨rfl, _⟩ | ⟨_, t, rfl⟩ | ⟨hv, _, _, _⟩
    · rfl
    · rfl
    · rw [hview] at hv
      exact absurd hv (by decide)
  · intro m idx hview _ hne hidx h0 hlt
    obtain ⟨r, hr⟩ := index_of_lt m.roster idx h0 hlt
    exact ⟨r, _, _, hr, handleSelect_roster m idx r hview hne hidx hlt hr, rfl, rfl⟩

/-- Witness of claim C28: the Roster view of a newly selected team that still holds
the roster of the first team and is loading. -/
theorem select_uses_stale_roster_witness :
    (∃ (r : RosterEntry) (m1 : Model) (cmds : List Cmd),
      index rosterLAD 0 = some r ∧
      handleSelect { NewModel with currentView := .ViewRoster, history := [.ViewTeams],
                                   selectedTeam := some teamNYY, roster := rosterLAD }
        = some (m1, cmds) ∧
      m1.currentView = .ViewPlayer ∧ m1.selectedPlayer = some r) ∧
    (∀ (m1 : Model) (cmds : List Cmd),
      handleSelect { NewModel with teams := [teamLAD, teamNYY, teamBOS], cursor := 1,
                                   roster := rosterLAD } = some (m1, cmds) →
      m1.roster = rosterLAD) :=
  ⟨(select_uses_stale_roster asciiLower).2.1
      { NewModel with currentView := .ViewRoster, history := [.ViewTeams],
                      selectedTeam := some teamNYY, roster := rosterLAD }
      0 rfl rfl (by decide) rfl (by decide) (by decide),
    fun m1 cmds h => (select_uses_stale_roster asciiLower).1 _ m1 cmds rfl h⟩


end MlbCli
